import Mathlib

/-!
The westack-go runtime: relation resolution, instances, login and policy rows.

A shallow embedding of `westack/bootstrap.go` and `westack/model/instance.go`.

Conventions of the embedding.

* A Go `string` is a sequence of bytes (`GoString`); string literals of the source are written
  `go "..."`, their UTF-8 encoding.
* A Go `map[string]T` is an association list; reading a key takes the first entry with that key,
  `delete` removes every entry with it. Go leaves the iteration order of a map unspecified: the
  embedding iterates in list order, and the theorems hold for every list, hence for every order.
* A nil map and an empty map read the same and are both the empty list. The raw field mappings
  handled here are created non-nil by the storage collaborator; a write into a nil map is not
  modelled.
* A run-time panic of the Go code (slice out of range, failed type assertion) is the result
  `none` of an `Option`, or a `panic` constructor of the result type.
* Pointers stored in the relation map and in the registry, and the pointer `ctx.Data` of an
  event context, are taken to be non-nil.
* Collaborators that are not part of these sources (storage, `jsonpath`, `bcrypt`, `jwt`,
  `strconv` on floats, registered handlers, `replaceVarNames`) are parameters.
-/

namespace Westack

/-! ## Strings -/

/-- A Go string: its bytes. -/
abbrev GoString := List Nat

/-- UTF-8 encoding of one character. -/
def utf8EncodeChar (c : Char) : GoString :=
  let v := c.toNat
  if v < 0x80 then [v]
  else if v < 0x800 then [0xC0 + v / 64, 0x80 + v % 64]
  else if v < 0x10000 then [0xE0 + v / 4096, 0x80 + v / 64 % 64, 0x80 + v % 64]
  else [0xF0 + v / 262144, 0x80 + v / 4096 % 64, 0x80 + v / 64 % 64, 0x80 + v % 64]

/-- The Go string denoted by a string literal. -/
def go (s : String) : GoString := s.data.flatMap utf8EncodeChar

/-- Lower-casing of one ASCII byte: `'A'..'Z'` move to `'a'..'z'`, every other byte stays. -/
def asciiLower (b : Nat) : Nat := if 65 ≤ b ∧ b ≤ 90 then b + 32 else b

/-- Go `strings.ToLower` applied to the one-byte string `[b]`. An ASCII byte is lower-cased.
A byte `≥ 0x80` standing alone is not valid UTF-8: `strings.ToLower` then goes through
`strings.Map(unicode.ToLower, s)`, which decodes it as `utf8.RuneError` and writes the
encoding of U+FFFD, the three bytes `EF BF BD`. -/
def ToLowerByte (b : Nat) : GoString :=
  if b < 0x80 then [asciiLower b] else [0xEF, 0xBF, 0xBD]

/-- The expression `strings.ToLower(name[:1]) + name[1:]` of `fixRelations`.
`name[:1]` panics on the empty string (`none`). -/
def lowerFirst (name : GoString) : Option GoString :=
  match name with
  | [] => none
  | b :: rest => some (ToLowerByte b ++ rest)

/-! ## Model configuration -/

/-- Go `model.Relation`; `PrimaryKey` and `ForeignKey` are `*string`, `none` is the nil pointer. -/
structure Relation where
  Type_ : GoString
  Model : GoString
  PrimaryKey : Option GoString
  ForeignKey : Option GoString
  deriving DecidableEq, Repr

/-- Go `model.CasbinConfig`. -/
structure CasbinConfig where
  RequestDefinition : GoString
  PolicyDefinition : GoString
  RoleDefinition : GoString
  PolicyEffect : GoString
  MatchersDefinition : GoString
  Policies : List GoString
  deriving DecidableEq, Repr

/-- Go `model.Config`, the fields the embedded code reads. -/
structure Config where
  Name : GoString
  Plural : GoString
  Base : GoString
  Public : Bool
  Hidden : List GoString
  Relations : List (GoString × Relation)
  Casbin : CasbinConfig
  deriving DecidableEq, Repr

/-- Go `model.Model`, the fields the embedded code reads. -/
structure Model where
  Name : GoString
  CollectionName : GoString
  Config : Config
  deriving DecidableEq, Repr

/-- The model registry `map[string]*Model`. -/
abbrev ModelRegistry := List (GoString × Model)

/-- Reading a key of a Go map: the first entry with that key. -/
def mapLookup {α : Type} (m : List (GoString × α)) (k : GoString) : Option α :=
  match m with
  | [] => none
  | (k', v) :: rest => if k' = k then some v else mapLookup rest k

/-! ## fixRelations -/

/-- The body of the loop of `fixRelations`, for one relation of the model named `ownerName`.
`none` is the panic of `name[:1]` on an empty name. -/
def fixRelation (registry : ModelRegistry) (ownerName : GoString) (relation : Relation) :
    Option Relation :=
  let relatedModelName := relation.Model
  match mapLookup registry relatedModelName with
  | none => some relation
  | some _ =>
    let relation :=
      if relation.PrimaryKey = none then { relation with PrimaryKey := some (go "_id") }
      else relation
    if relation.ForeignKey = none then
      if relation.Type_ = go "belongsTo" then
        match lowerFirst relatedModelName with
        | none => none
        | some s => some { relation with ForeignKey := some (s ++ go "Id") }
      else if relation.Type_ = go "hasOne" ∨ relation.Type_ = go "hasMany" then
        match lowerFirst ownerName with
        | none => none
        | some s => some { relation with ForeignKey := some (s ++ go "Id") }
      else some relation
    else some relation

/-- The loop of `fixRelations` over the relation map. -/
def fixRelationsLoop (registry : ModelRegistry) (ownerName : GoString) :
    List (GoString × Relation) → Option (List (GoString × Relation))
  | [] => some []
  | (relationName, relation) :: rest =>
    match fixRelation registry ownerName relation with
    | none => none
    | some relation' =>
      match fixRelationsLoop registry ownerName rest with
      | none => none
      | some rest' => some ((relationName, relation') :: rest')

/-- Go `fixRelations(loadedModel)`: the model with its relations resolved in place, `none` when
the call panics. `registry` is `*loadedModel.GetModelRegistry()`. -/
def fixRelations (registry : ModelRegistry) (loadedModel : Model) : Option Model :=
  match fixRelationsLoop registry loadedModel.Name loadedModel.Config.Relations with
  | none => none
  | some relations =>
    some { loadedModel with Config := { loadedModel.Config with Relations := relations } }

/-- The name starts with a one-byte (ASCII) character. -/
def startsWithASCII : GoString → Bool
  | [] => false
  | b :: _ => decide (b < 0x80)

/-- Follows the spec's words for `lowerFirst`, for a name whose first character is ASCII:
the first character is lower-cased, the rest of the name is unchanged. -/
def lowerFirstASCII : GoString → GoString
  | [] => []
  | b :: rest => asciiLower b :: rest

/-- The relation gets a derived foreign key: its target is registered and its `ForeignKey`
is the nil pointer. -/
def needsForeignKey (registry : ModelRegistry) (relation : Relation) : Prop :=
  (mapLookup registry relation.Model).isSome = true ∧ relation.ForeignKey = none

/-- No foreign key of the model is derived from an empty name: for every relation that gets a
derived key, the target name (`belongsTo`) or the owning model name (`hasOne`, `hasMany`) is
not the empty string. -/
def derivedNamesNonEmpty (registry : ModelRegistry) (loadedModel : Model) : Prop :=
  ∀ kr ∈ loadedModel.Config.Relations, needsForeignKey registry kr.2 →
    (kr.2.Type_ = go "belongsTo" → kr.2.Model ≠ []) ∧
    (kr.2.Type_ = go "hasOne" ∨ kr.2.Type_ = go "hasMany" → loadedModel.Name ≠ [])

instance (registry : ModelRegistry) (relation : Relation) :
    Decidable (needsForeignKey registry relation) := by
  unfold needsForeignKey
  infer_instance

/-! ## Dynamic values -/

/-- A `float64`, given by its IEEE 754 binary64 bit pattern (`math.Float64bits`). -/
structure Float64 where
  bits : Nat
  deriving DecidableEq, Repr

/-- A `float32`, given by its IEEE 754 binary32 bit pattern (`math.Float32bits`). -/
structure Float32 where
  bits : Nat
  deriving DecidableEq, Repr

/-- The position of the leading one bit of `m`, with fuel. -/
def log2Fuel : Nat → Nat → Nat
  | 0, _ => 0
  | fuel + 1, m => if m < 2 then 0 else log2Fuel fuel (m / 2) + 1

/-- The position of the leading one bit of `m`: the largest `e` with `2 ^ e ≤ m`, for `m > 0`. -/
def ilog2 (m : Nat) : Nat := log2Fuel m m

/-- The conversion `float64(n)` of an integer: round to nearest, ties to even. -/
def Float64.ofInt (n : Int) : Float64 :=
  let m := n.natAbs
  if m = 0 then ⟨0⟩
  else
    let e := ilog2 m
    let sign := if n < 0 then 2 ^ 63 else 0
    if e ≤ 52 then ⟨sign + (e + 1023) * 2 ^ 52 + (m * 2 ^ (52 - e) - 2 ^ 52)⟩
    else
      let sh := e - 52
      let q := m / 2 ^ sh
      let r := m % 2 ^ sh
      let half := 2 ^ (sh - 1)
      let q' := if r > half ∨ (r = half ∧ q % 2 = 1) then q + 1 else q
      ⟨sign + (e + 1023) * 2 ^ 52 + (q' - 2 ^ 52)⟩

/-- Truncation toward zero of the number with sign bit `neg`, biased exponent `e` (bias `bias`)
and `p`-bit fraction `frac`, as `int64(f)` computes it. A value outside the range of `int64`, an
infinity or a NaN has an implementation-dependent result in Go; the embedding takes the amd64
result, the smallest `int64`. -/
def truncToInt64 (neg : Bool) (e frac bias p : Nat) : Int :=
  if e < bias then 0
  else if e - bias ≥ 63 then -(2 ^ 63 : Int)
  else
    let mag := (2 ^ p + frac) * 2 ^ (e - bias) / 2 ^ p
    if neg then -(mag : Int) else (mag : Int)

/-- The conversion `int64(f)` of a `float64`. -/
def Float64.toInt64 (f : Float64) : Int :=
  truncToInt64 (decide (f.bits / 2 ^ 63 % 2 = 1)) (f.bits / 2 ^ 52 % 2 ^ 11) (f.bits % 2 ^ 52)
    1023 52

/-- The conversion `int64(f)` of a `float32`. -/
def Float32.toInt64 (f : Float32) : Int :=
  truncToInt64 (decide (f.bits / 2 ^ 31 % 2 = 1)) (f.bits / 2 ^ 23 % 2 ^ 8) (f.bits % 2 ^ 23)
    127 23

mutual
/-- A Go `interface{}` value, by dynamic type. -/
inductive Value where
  /-- The nil interface. -/
  | nil
  | string (s : GoString)
  | bool (b : Bool)
  | int (n : Int)
  | int32 (n : Int)
  | int64 (n : Int)
  | float32 (f : Float32)
  | float64 (f : Float64)
  /-- A `wst.M`. -/
  | M (m : List (GoString × Value))
  /-- A `primitive.M`. -/
  | primitiveM (m : List (GoString × Value))
  /-- A `map[string]interface{}`. -/
  | map (m : List (GoString × Value))
  /-- A `*map[string]interface{}`, `none` the nil pointer. -/
  | mapPtr (p : Option (List (GoString × Value)))
  /-- A `*wst.M`, `none` the nil pointer. -/
  | MPtr (p : Option (List (GoString × Value)))
  /-- A `wst.A`, a slice of `wst.M`. -/
  | A (a : List (List (GoString × Value)))
  /-- A `primitive.A`. -/
  | primitiveA (a : List Value)
  /-- A `[]interface{}`. -/
  | slice (a : List Value)
  /-- A `[]map[string]interface{}`. -/
  | mapSlice (a : List (List (GoString × Value)))
  /-- A `[]string`. -/
  | strings (a : List GoString)
  /-- A `primitive.ObjectID`, its twelve bytes. -/
  | objectID (id : List Nat)
  /-- A `time.Time`, in milliseconds. -/
  | time (t : Int)
  /-- An `Instance` held by value. -/
  | instanceVal (i : Instance)
  /-- A `*Instance`, `none` the nil pointer. -/
  | instancePtr (p : Option Instance)
  /-- A `[]Instance`. -/
  | instances (l : List Instance)
  /-- A value of any other dynamic type. -/
  | other (tag : Nat)
/-- Go `model.Instance`: the model, the identifier, the raw field mapping and its cached
serialized form. -/
inductive Instance where
  | mk (Model : Model) (Id : Value) (data : List (GoString × Value)) (bytes : List Nat)
end

/-- A `wst.M`, a mapping from names to values. A nil map and an empty map read the same; both
are the empty list. -/
abbrev GoMap := List (GoString × Value)

/-- The field `Model` of an instance. -/
def Instance.Model : Instance → Model
  | .mk m _ _ _ => m

/-- The field `Id` of an instance. -/
def Instance.Id : Instance → Value
  | .mk _ id _ _ => id

/-- The field `data` of an instance. -/
def Instance.data : Instance → GoMap
  | .mk _ _ d _ => d

/-- The field `bytes` of an instance. -/
def Instance.bytes : Instance → List Nat
  | .mk _ _ _ b => b

/-- The comparison `v == nil` of an interface value. -/
def Value.isNil : Value → Bool
  | .nil => true
  | _ => false

/-- The index expression `m[k]`: the nil interface when the key is absent. -/
def mapGet (m : GoMap) (k : GoString) : Value :=
  (mapLookup m k).getD Value.nil

/-- The assignment `m[k] = v`. -/
def mapSet {α : Type} (m : List (GoString × α)) (k : GoString) (v : α) : List (GoString × α) :=
  match m with
  | [] => [(k, v)]
  | (k', v') :: rest => if k' = k then (k, v) :: rest else (k', v') :: mapSet rest k v

/-- The statement `delete(m, k)`. -/
def mapDelete {α : Type} (m : List (GoString × α)) (k : GoString) : List (GoString × α) :=
  m.filter (fun kv => decide (kv.1 ≠ k))

/-- Go `wst.CopyMap`: a new map with the entries of `src`. -/
def CopyMap (src : GoMap) : GoMap :=
  src.foldl (fun targetMap kv => mapSet targetMap kv.1 kv.2) []

/-! ## Errors -/

/-- A `fiber.Error`: status code and message. -/
structure FiberError where
  Code : Nat
  Message : GoString
  deriving DecidableEq, Repr

/-- Go `fiber.ErrBadRequest`. -/
def ErrBadRequest : FiberError := ⟨400, go "Bad Request"⟩

/-- Go `fiber.ErrUnauthorized`. -/
def ErrUnauthorized : FiberError := ⟨401, go "Unauthorized"⟩

/-- Go `fiber.ErrConflict`. -/
def ErrConflict : FiberError := ⟨409, go "Conflict"⟩

/-- The error built by `wst.CreateError(fiberError, code, details, name)`; `CreateError` is not
among the sources, the error is given by the four arguments of the call. -/
structure WeStackError where
  FiberError : FiberError
  Code : GoString
  Details : GoMap
  Name : GoString

/-- A Go `error` value. -/
inductive GoError where
  | westack (e : WeStackError)
  | datasource (code : Nat) (message : GoString)
  | other (message : GoString)

/-- The call `wst.CreateError(fiberError, code, details, name)`. -/
def CreateError (fiberError : FiberError) (code : GoString) (details : GoMap)
    (name : GoString) : GoError :=
  GoError.westack ⟨fiberError, code, details, name⟩

/-! ## White space -/

/-- The bytes of one leading white-space character (`unicode.IsSpace`) are removed; `none` when
the string does not start with one. The white-space characters are the ASCII ones, U+0085,
U+00A0, U+1680, U+2000 to U+200A, U+2028, U+2029, U+202F, U+205F and U+3000. -/
def dropSpaceRune : GoString → Option GoString
  | 0xC2 :: 0x85 :: rest => some rest
  | 0xC2 :: 0xA0 :: rest => some rest
  | 0xE1 :: 0x9A :: 0x80 :: rest => some rest
  | 0xE2 :: 0x80 :: b :: rest =>
    if (0x80 ≤ b ∧ b ≤ 0x8A) ∨ b = 0xA8 ∨ b = 0xA9 ∨ b = 0xAF then some rest else none
  | 0xE2 :: 0x81 :: 0x9F :: rest => some rest
  | 0xE3 :: 0x80 :: 0x80 :: rest => some rest
  | b :: rest => if (9 ≤ b ∧ b ≤ 13) ∨ b = 32 then some rest else none
  | [] => none

/-- The same from the end of the string, on the reversed bytes. -/
def dropSpaceRuneRev : GoString → Option GoString
  | 0x85 :: 0xC2 :: rest => some rest
  | 0xA0 :: 0xC2 :: rest => some rest
  | 0x80 :: 0x9A :: 0xE1 :: rest => some rest
  | 0x9F :: 0x81 :: 0xE2 :: rest => some rest
  | 0x80 :: 0x80 :: 0xE3 :: rest => some rest
  | b :: 0x80 :: 0xE2 :: rest =>
    if (0x80 ≤ b ∧ b ≤ 0x8A) ∨ b = 0xA8 ∨ b = 0xA9 ∨ b = 0xAF then some rest
    else if (9 ≤ b ∧ b ≤ 13) ∨ b = 32 then some (0x80 :: 0xE2 :: rest) else none
  | b :: rest => if (9 ≤ b ∧ b ≤ 13) ∨ b = 32 then some rest else none
  | [] => none

/-- Repeats `step` while it applies, at most `fuel` times. -/
def dropWhileSome (step : GoString → Option GoString) : Nat → GoString → GoString
  | 0, s => s
  | fuel + 1, s =>
    match step s with
    | none => s
    | some rest => dropWhileSome step fuel rest

/-- Go `strings.TrimSpace`: leading and trailing white space removed. Every step removes at least
one byte, so the length of the string is enough fuel. -/
def TrimSpace (s : GoString) : GoString :=
  let left := dropWhileSome dropSpaceRune s.length s
  (dropWhileSome dropSpaceRuneRev left.length left.reverse).reverse

/-! ## Instances -/

/-- Modelled from the spec: `isSingleRelation` is not among the sources; the to-one relation
types are `belongsTo` and `hasOne`. -/
def isSingleRelation (relationType : GoString) : Bool :=
  decide (relationType = go "belongsTo" ∨ relationType = go "hasOne")

/-- Modelled from the spec: `isManyRelation` is not among the sources; the to-many relation
types are `hasMany` and `hasAndBelongsToMany`. -/
def isManyRelation (relationType : GoString) : Bool :=
  decide (relationType = go "hasMany" ∨ relationType = go "hasAndBelongsToMany")

/-- The loop of `ToJSON` over the relations of the model. `nested relationName single` is the
serialized form of `data[relationName]`, asserted to be a `*Instance` (`single`) or a
`[]Instance`; it is `none` when the type assertion panics. The result `none` is a panic; the
early `return nil` yields the empty map. `FindModel` is `Model.App.FindModel`. -/
def ToJSONLoop (FindModel : GoString → Except GoError (Option Model)) (data : GoMap)
    (nested : GoString → Bool → Option Value) :
    List (GoString × Relation) → GoMap → Option GoMap
  | [], result => some result
  | (relationName, relationConfig) :: rest, result =>
    if (mapGet data relationName).isNil then ToJSONLoop FindModel data nested rest result
    else if relationConfig.Type_ = go "" then ToJSONLoop FindModel data nested rest result
    else
      match FindModel relationConfig.Model with
      | .error _ => some []
      | .ok none => ToJSONLoop FindModel data nested rest result
      | .ok (some _) =>
        if isSingleRelation relationConfig.Type_ then
          match nested relationName true with
          | none => none
          | some relatedInstance =>
            ToJSONLoop FindModel data nested rest (mapSet result relationName relatedInstance)
        else if isManyRelation relationConfig.Type_ then
          match nested relationName false with
          | none => none
          | some aux => ToJSONLoop FindModel data nested rest (mapSet result relationName aux)
        else ToJSONLoop FindModel data nested rest result

mutual
/-- Go `(*Instance).ToJSON()` on a non-nil receiver; `none` is a panic. -/
def Instance.ToJSON (FindModel : GoString → Except GoError (Option Model)) :
    Instance → Option GoMap
  | .mk model _ data _ =>
    ToJSONLoop FindModel data (fun relationName single => nestedAt FindModel data relationName single)
      model.Config.Relations (CopyMap data)
/-- The serialized form of the value stored under `relationName`. -/
def nestedAt (FindModel : GoString → Except GoError (Option Model)) :
    List (GoString × Value) → GoString → Bool → Option Value
  | [], _, _ => none
  | (k, v) :: rest, relationName, single =>
    if k = relationName then nestedValue FindModel v single
    else nestedAt FindModel rest relationName single
/-- Go `rawRelatedData.(*Instance).ToJSON()` when `single`, and the `wst.A` of the `ToJSON()` of
the elements of `rawRelatedData.([]Instance)` otherwise. A nil receiver yields the nil map. -/
def nestedValue (FindModel : GoString → Except GoError (Option Model)) :
    Value → Bool → Option Value
  | .instancePtr none, true => some (.M [])
  | .instancePtr (some relatedInstance), true =>
    match Instance.ToJSON FindModel relatedInstance with
    | none => none
    | some m => some (.M m)
  | .instances l, false =>
    match ToJSONList FindModel l with
    | none => none
    | some aux => some (.A aux)
  | _, _ => none
/-- Go `ToJSON()` of every element of a `[]Instance`. -/
def ToJSONList (FindModel : GoString → Except GoError (Option Model)) :
    List Instance → Option (List GoMap)
  | [] => some []
  | v :: rest =>
    match Instance.ToJSON FindModel v with
    | none => none
    | some m =>
      match ToJSONList FindModel rest with
      | none => none
      | some ms => some (m :: ms)
end

/-- Go `(*Instance).ToJSON()`, the receiver `none` being the nil pointer. -/
def ToJSON (FindModel : GoString → Except GoError (Option Model)) :
    Option Instance → Option GoMap
  | none => some []
  | some modelInstance => Instance.ToJSON FindModel modelInstance

/-- Go `Instance.Get(relationName)`. `none` is the panic of reading `.Type` through the nil
pointer that the relation map holds for a name it does not declare. -/
def Instance.Get (modelInstance : Instance) (relationName : GoString) : Option Value :=
  let result := mapGet modelInstance.data relationName
  match mapLookup modelInstance.Model.Config.Relations relationName with
  | none => none
  | some relation =>
    if relation.Type_ = go "hasMany" ∨ relation.Type_ = go "hasAndBelongsToMany" then
      if result.isNil then some (.instances []) else some result
    else some result

/-- Go `Instance.GetOne(relationName)`: `some none` is the nil pointer, `none` a panic. -/
def Instance.GetOne (modelInstance : Instance) (relationName : GoString) :
    Option (Option Instance) :=
  match modelInstance.Get relationName with
  | none => none
  | some .nil => some none
  | some (.instancePtr p) => some p
  | some _ => none

/-- Go `Instance.GetMany(relationName)`; `none` is a panic. -/
def Instance.GetMany (modelInstance : Instance) (relationName : GoString) :
    Option (List Instance) :=
  match modelInstance.Get relationName with
  | some (.instances l) => some l
  | _ => none

/-- Go `Instance.HideProperties()`. -/
def Instance.HideProperties : Instance → Instance
  | .mk model id data bytes =>
    .mk model id (model.Config.Hidden.foldl (fun data propertyName => mapDelete data propertyName)
      data) bytes

/-- The first loop of `Reload`: every key of `data` that is not a relation name is deleted. -/
def deleteNonRelations (relations : List (GoString × Relation)) (data : GoMap) : GoMap :=
  (data.map Prod.fst).foldl
    (fun data k => if (mapLookup relations k).isNone then mapDelete data k else data) data

/-- The second loop of `Reload`: every entry of `newData` whose key is not a relation name is
stored in `data`. -/
def copyNonRelations (relations : List (GoString × Relation)) (newData data : GoMap) : GoMap :=
  newData.foldl
    (fun data kv => if (mapLookup relations kv.1).isNone then mapSet data kv.1 kv.2 else data)
    data

/-- Go `Instance.Reload(eventContext)`: the instance after the call and the returned error;
`none` is a panic (nil `newInstance`). `FindById` is `Model.FindById(id, nil, eventContext)`
and `Marshal` is `bson.Marshal`. -/
def Instance.Reload (FindById : Value → Except GoError (Option Instance))
    (Marshal : GoMap → Except GoError (List Nat)) (modelInstance : Instance) :
    Option (Instance × Option GoError) :=
  match FindById modelInstance.Id with
  | .error err => some (modelInstance, some err)
  | .ok none => none
  | .ok (some newInstance) =>
    let relations := modelInstance.Model.Config.Relations
    let modelInstance := Instance.mk modelInstance.Model modelInstance.Id
      (deleteNonRelations relations modelInstance.data) modelInstance.bytes
    let modelInstance := Instance.mk modelInstance.Model modelInstance.Id
      (copyNonRelations relations newInstance.data modelInstance.data) modelInstance.bytes
    let modelInstance := Instance.mk modelInstance.Model modelInstance.Id
      newInstance.data modelInstance.bytes
    match Marshal modelInstance.data with
    | .error err => some (modelInstance, some err)
    | .ok _bytes =>
      some (Instance.mk modelInstance.Model modelInstance.Id modelInstance.data _bytes, none)

/-! ## Path accessors -/

/-- Go `strconv.Itoa` and `strconv.FormatInt(n, 10)`: the decimal digits of `n`. -/
def FormatInt (n : Int) : GoString := go (toString n)

/-- Go `strconv.FormatBool`. -/
def FormatBool (b : Bool) : GoString := if b then go "true" else go "false"

/-- The path handed to `jsonpath.JsonPathLookup`: `fmt.Sprintf("$.%v", path)`. -/
def jsonPath (path : GoString) : GoString := go "$." ++ path

/-- Go `Instance.GetString(path)`. `JsonPathLookup` is the lookup of the `jsonpath` library and
`FormatFloat f` is `strconv.FormatFloat(f, 'f', -1, 64)`. -/
def Instance.GetString (JsonPathLookup : GoMap → GoString → Except GoError Value)
    (FormatFloat : Float64 → GoString) (modelInstance : Instance) (path : GoString) :
    GoString :=
  match JsonPathLookup modelInstance.data (jsonPath path) with
  | .error _ => go ""
  | .ok res =>
    match res with
    | .string s => s
    | .float64 f => FormatFloat f
    | .int n => FormatInt n
    | .int64 n => FormatInt n
    | .bool b => FormatBool b
    | _ => go ""

/-- Go `Instance.GetFloat64(path)`. `ParseFloat s` is `strconv.ParseFloat(s, 64)`. -/
def Instance.GetFloat64 (JsonPathLookup : GoMap → GoString → Except GoError Value)
    (ParseFloat : GoString → Except GoError Float64) (modelInstance : Instance)
    (path : GoString) : Float64 :=
  match JsonPathLookup modelInstance.data (jsonPath path) with
  | .error _ => Float64.ofInt 0
  | .ok res =>
    match res with
    | .string s =>
      match ParseFloat s with
      | .error _ => Float64.ofInt 0
      | .ok aux => aux
    | .float64 f => f
    | .int n => Float64.ofInt n
    | .int64 n => Float64.ofInt n
    | .bool b => if b then Float64.ofInt 1 else Float64.ofInt 0
    | _ => Float64.ofInt 0

/-- Go `Instance.GetInt(path)`. -/
def Instance.GetInt (JsonPathLookup : GoMap → GoString → Except GoError Value)
    (modelInstance : Instance) (path : GoString) : Int :=
  match JsonPathLookup modelInstance.data (jsonPath path) with
  | .error _ => 0
  | .ok res =>
    match res with
    | .float64 f => f.toInt64
    | .int64 n => n
    | .int32 n => n
    | .int n => n
    | .float32 f => f.toInt64
    | _ => 0

/-- A lookup of one top-level key, as `jsonpath.JsonPathLookup` answers the path `$.key`: the
value stored under the key, an error when the key is absent. -/
def lookupTopLevel (data : GoMap) (jpath : GoString) : Except GoError Value :=
  match jpath with
  | 36 :: 46 :: key =>
    match mapLookup data key with
    | some v => .ok v
    | none => .error (.other (go "key error: " ++ key ++ go " not found in object"))
  | _ => .error (.other (go "should start with '$'"))

/-! ## Event contexts and handlers -/

/-- Go `model.BearerToken`, reduced to the system flag of its user and its role names. -/
structure BearerToken where
  System : Bool
  Roles : List GoString
  deriving DecidableEq, Repr

/-- Go `model.EventContext`, the fields the embedded code uses. `Data` is the mapping held by the
variable `ctx.Data` points to, `Instance` the instance `ctx.Instance` points to. -/
inductive EventContext where
  | mk (BaseContext : Option EventContext) (Data : GoMap) (Instance : Option Instance)
      (ModelID : Value) (IsNewInstance : Bool) (DisableTypeConversions : Bool)
      (Bearer : Option BearerToken) (StatusCode : Nat) (Result : Value)

/-- The zero value `EventContext{}`. -/
def EventContext.zero : EventContext := .mk none [] none .nil false false none 0 .nil

/-- The field `BaseContext`. -/
def EventContext.BaseContext : EventContext → Option EventContext
  | .mk b _ _ _ _ _ _ _ _ => b

/-- The field `Data`. -/
def EventContext.Data : EventContext → GoMap
  | .mk _ d _ _ _ _ _ _ _ => d

/-- The field `Instance`. -/
def EventContext.Instance : EventContext → Option Instance
  | .mk _ _ i _ _ _ _ _ _ => i

/-- The field `DisableTypeConversions`. -/
def EventContext.DisableTypeConversions : EventContext → Bool
  | .mk _ _ _ _ _ d _ _ _ => d

/-- The field `StatusCode`. -/
def EventContext.StatusCode : EventContext → Nat
  | .mk _ _ _ _ _ _ _ s _ => s

/-- The field `Result`. -/
def EventContext.Result : EventContext → Value
  | .mk _ _ _ _ _ _ _ _ r => r

/-- The assignment `ctx.Data = &data`. -/
def EventContext.setData : EventContext → GoMap → EventContext
  | .mk b _ i m n d br s r, data => .mk b data i m n d br s r

/-- The assignments `ctx.Instance = inst`, `ctx.ModelID = id`, `ctx.IsNewInstance = false`. -/
def EventContext.setInstance : EventContext → Westack.Instance → Value → EventContext
  | .mk b data _ _ _ d br s r, inst, id => .mk b data (some inst) id false d br s r

/-- The assignment `ctx.Bearer = bearer`. -/
def EventContext.setBearer : EventContext → BearerToken → EventContext
  | .mk b data i m n d _ s r, bearer => .mk b data i m n d (some bearer) s r

/-- The assignments `ctx.StatusCode = status`, `ctx.Result = result`. -/
def EventContext.setResult : EventContext → Nat → Value → EventContext
  | .mk b data i m n d br _ _, status, result => .mk b data i m n d br status result

/-- The walk of `UpdateAttributes` along `BaseContext` up to the context that has none. -/
def EventContext.root : EventContext → EventContext
  | .mk none data i m n d br s r => .mk none data i m n d br s r
  | .mk (some base) _ _ _ _ _ _ _ _ => base.root

/-- What a handler call leaves: a panic, or the returned error together with the context as the
handler left it, whose `Data` is what the handler left in the variable that `ctx.Data` pointed
to when the handler was called. -/
inductive HandlerResult where
  | panic
  | returned (ctx : EventContext) (err : Option GoError)

/-- A registered handler `func(ctx *EventContext) error`. -/
abbrev Handler := EventContext → HandlerResult

/-! ## UpdateAttributes -/

/-- The collaborators of an instance: the application (`FindModel`), the datasource
(`ReplaceObjectIds`, `UpdateById`), the model (`DisabledHandlers`, `GetHandler`, `FindById`) and
`bson.Marshal`. -/
structure Collaborators where
  FindModel : GoString → Except GoError (Option Model)
  ReplaceObjectIds : GoMap → GoMap
  DisabledHandlers : GoString → Bool
  GetHandler : GoString → Handler
  UpdateById : GoString → Value → GoMap → Except GoError (Option GoMap)
  FindById : Value → Except GoError (Option Instance)
  Marshal : GoMap → Except GoError (List Nat)

/-- The type switch of `UpdateAttributes` on its input. -/
inductive UpdateInput where
  /-- The `default` case: `log.Fatal` ends the process. -/
  | fatal
  | panic
  | finalData (m : GoMap)

/-- The type switch of `UpdateAttributes`: the input normalized to one mapping. -/
def normalizeUpdateInput (FindModel : GoString → Except GoError (Option Model)) :
    Value → UpdateInput
  | .map m => .finalData (m.foldl (fun finalData kv => mapSet finalData kv.1 kv.2) [])
  | .mapPtr none => .panic
  | .mapPtr (some m) => .finalData (m.foldl (fun finalData kv => mapSet finalData kv.1 kv.2) [])
  | .M m => .finalData m
  | .MPtr none => .panic
  | .MPtr (some m) => .finalData m
  | .instanceVal value =>
    match ToJSON FindModel (some value) with
    | none => .panic
    | some m => .finalData m
  | .instancePtr p =>
    match ToJSON FindModel p with
    | none => .panic
    | some m => .finalData m
  | _ => .fatal

/-- How a call of `UpdateAttributes` ends. -/
inductive UpdateOutcome where
  | fatal
  | panic
  | returned (modelInstance : Option Instance) (err : Option GoError)

/-- A call of `UpdateAttributes`: the arguments of the call of `Datasource.UpdateById`
(collection, identifier, mapping) when the call is reached, and how `UpdateAttributes` ends. -/
structure UpdateResult where
  stored : Option (GoString × Value × GoMap)
  outcome : UpdateOutcome

/-- The loop `for key := range *Relations { delete(finalData, key) }`. -/
def deleteRelations (relations : List (GoString × Relation)) (finalData : GoMap) : GoMap :=
  relations.foldl (fun finalData kr => mapDelete finalData kr.1) finalData

/-- A handler call guarded by `DisabledHandlers[name] != true`. -/
def runHandler (env : Collaborators) (name : GoString) (eventContext : EventContext) :
    HandlerResult :=
  if env.DisabledHandlers name != true then env.GetHandler name eventContext
  else .returned eventContext none

/-- The part of `UpdateAttributes` that follows a successful `UpdateById`: reload, hide the
hidden properties, run the after-save handler. -/
def afterUpdate (env : Collaborators) (modelInstance : Instance) (eventContext : EventContext) :
    UpdateOutcome :=
  match modelInstance.Reload env.FindById env.Marshal with
  | none => .panic
  | some (modelInstance, err) =>
    let modelInstance := modelInstance.HideProperties
    match err with
    | some err => .returned none (some err)
    | none =>
      let eventContext := eventContext.setInstance modelInstance modelInstance.Id
      match runHandler env (go "__operation__after_save") eventContext with
      | .panic => .panic
      | .returned _ (some err) => .returned none (some err)
      | .returned _ none => .returned (some modelInstance) none

/-- Go `Instance.UpdateAttributes(data, baseContext)`; `baseContext` is `none` for the nil
pointer. `eventContext.Data` points to the variable `finalData`: what the before-save handler
leaves there is the `finalData` the rest of the function works on. -/
def Instance.UpdateAttributes (env : Collaborators) (modelInstance : Instance) (data : Value)
    (baseContext : Option EventContext) : UpdateResult :=
  match normalizeUpdateInput env.FindModel data with
  | .fatal => ⟨none, .fatal⟩
  | .panic => ⟨none, .panic⟩
  | .finalData finalData =>
    let baseContext := baseContext.getD EventContext.zero
    let targetBaseContext := baseContext.root
    let finalData :=
      if !baseContext.DisableTypeConversions then env.ReplaceObjectIds finalData else finalData
    let eventContext := EventContext.mk (some targetBaseContext) finalData (some modelInstance)
      modelInstance.Id false false none 0 .nil
    match runHandler env (go "__operation__before_save") eventContext with
    | .panic => ⟨none, .panic⟩
    | .returned _ (some err) => ⟨none, .returned none (some err)⟩
    | .returned eventContext none =>
      let finalData := deleteRelations modelInstance.Model.Config.Relations eventContext.Data
      let eventContext := eventContext.setData finalData
      let stored := (modelInstance.Model.CollectionName, modelInstance.Id, finalData)
      match env.UpdateById modelInstance.Model.CollectionName modelInstance.Id finalData with
      | .error err => ⟨some stored, .returned none (some err)⟩
      | .ok none =>
        ⟨some stored, .returned none (some (.datasource 400 (go "Could not update document")))⟩
      | .ok (some _) => ⟨some stored, afterUpdate env modelInstance eventContext⟩

/-! ## The login handler -/

/-- Lower-case hexadecimal digits of the bytes, as `primitive.ObjectID.Hex` writes them. -/
def Hex (bytes : List Nat) : GoString :=
  bytes.flatMap (fun b => [Nat.toDigits 16 (b / 16 % 16), Nat.toDigits 16 (b % 16)].flatMap
    (fun ds => ds.map Char.toNat))

/-- The claims handed to `jwt.NewWithClaims`. -/
structure Claims where
  userId : GoString
  created : Int
  ttl : Int
  roles : List GoString
  deriving DecidableEq, Repr

/-- The collaborators of the login handler: `loadedModel.FindMany` for the filter
`{"email": email}` (instances and error), `bcrypt.CompareHashAndPassword` (`true` when it
returns no error), the `FindMany` of the role-mapping model for the principal with the given
hexadecimal and raw identifier (`none` when `app.roleMappingModel` is nil), `SignedString` of
the token with the given claims, the time `time.Now().UnixMilli()`, and `FindModel`. -/
structure LoginCollaborators where
  FindMany : GoString → List Instance × Option GoError
  CompareHashAndPassword : GoString → GoString → Bool
  roleMappingFindMany : Option (GoString → Value → Except GoError (List Instance))
  SignedString : Claims → GoString
  now : Int
  FindModel : GoString → Except GoError (Option Model)

/-- The generic failure of the login handler,
`CreateError(fiber.ErrUnauthorized, "LOGIN_FAILED", {"message": "login failed"}, "Error")`. -/
def loginFailed : GoError :=
  CreateError ErrUnauthorized (go "LOGIN_FAILED")
    [(go "message", .string (go "login failed"))] (go "Error")

/-- The validation error of the login handler, `CreateError(fiber.ErrBadRequest,
"USERNAME_EMAIL_REQUIRED", {"message": "username or email is required"}, "ValidationError")`. -/
def usernameEmailRequired : GoError :=
  CreateError ErrBadRequest (go "USERNAME_EMAIL_REQUIRED")
    [(go "message", .string (go "username or email is required"))] (go "ValidationError")

/-- The condition `v == nil || strings.TrimSpace(v.(string)) == ""`; `none` is the panic of
the type assertion. -/
def nilOrBlank (v : Value) : Option Bool :=
  match v with
  | .nil => some true
  | .string s => some (decide (TrimSpace s = go ""))
  | _ => none

/-- The type assertion `v.(string)`. -/
def Value.assertString : Value → Option GoString
  | .string s => some s
  | _ => none

/-- The loop of the login handler over the role entries:
`roleNames = append(roleNames, roleEntry.GetOne("role").ToJSON()["name"].(string))`. -/
def collectRoleNames (FindModel : GoString → Except GoError (Option Model)) :
    List Instance → List GoString → Option (List GoString)
  | [], roleNames => some roleNames
  | roleEntry :: rest, roleNames =>
    match roleEntry.GetOne (go "role") with
    | none => none
    | some role =>
      match ToJSON FindModel role with
      | none => none
      | some json =>
        match (mapGet json (go "name")).assertString with
        | none => none
        | some name => collectRoleNames FindModel rest (roleNames ++ [name])

/-- The end of the login handler, once the password is verified: role names, token, result. -/
def loginIssueToken (env : LoginCollaborators) (ctx : EventContext) (firstUser : Instance) :
    HandlerResult :=
  match firstUser.Id with
  | .objectID id =>
    let userIdHex := Hex id
    let roleNames := [go "USER"]
    let roles : Option (EventContext × Except GoError (List GoString)) :=
      match env.roleMappingFindMany with
      | none => some (ctx, .ok roleNames)
      | some findMany =>
        let ctx := ctx.setBearer ⟨true, []⟩
        match findMany userIdHex firstUser.Id with
        | .error err => some (ctx, .error err)
        | .ok roleEntries =>
          match collectRoleNames env.FindModel roleEntries roleNames with
          | none => none
          | some roleNames => some (ctx, .ok roleNames)
    match roles with
    | none => .panic
    | some (ctx, .error err) => .returned ctx (some err)
    | some (ctx, .ok roleNames) =>
      let tokenString := env.SignedString ⟨userIdHex, env.now, 604800 * 2 * 1000, roleNames⟩
      .returned (ctx.setResult 200
        (.map [(go "id", .string tokenString), (go "userId", .string userIdHex)])) none
  | _ => .panic

/-- The handler registered for `login` on a model whose base is `User`. -/
def login (env : LoginCollaborators) (ctx : EventContext) : HandlerResult :=
  let data := ctx.Data
  match nilOrBlank (mapGet data (go "email")) with
  | none => .panic
  | some true => .returned ctx (some usernameEmailRequired)
  | some false =>
    match nilOrBlank (mapGet data (go "password")) with
    | none => .panic
    | some true => .returned ctx (some loginFailed)
    | some false =>
      match (mapGet data (go "email")).assertString with
      | none => .panic
      | some email =>
        match (env.FindMany email).1 with
        | [] => .returned ctx (some loginFailed)
        | firstUser :: _ =>
          let ctx := ctx.setInstance firstUser firstUser.Id
          match firstUser.ToJSON env.FindModel with
          | none => .panic
          | some firstUserData =>
            match (mapGet firstUserData (go "password")).assertString,
                (mapGet data (go "password")).assertString with
            | some savedPassword, some password =>
              if env.CompareHashAndPassword savedPassword password then
                loginIssueToken env ctx firstUser
              else .returned ctx (some loginFailed)
            | _, _ => .panic

/-! ## Policy rows -/

/-- The Casbin model under construction: the calls of `AddDef` (section, key, value) and of
`AddPolicy` (section, policy type, rule), in the order they are made. -/
structure CasbinModel where
  defs : List (GoString × GoString × GoString)
  policies : List (GoString × GoString × List GoString)
  deriving DecidableEq, Repr

/-- Go `casbinmodel.NewModel()`. -/
def NewModel : CasbinModel := ⟨[], []⟩

/-- Go `casbModel.AddDef(sec, key, value)`. -/
def CasbinModel.AddDef (m : CasbinModel) (sec key value : GoString) : CasbinModel :=
  { m with defs := m.defs ++ [(sec, key, value)] }

/-- Go `casbModel.AddPolicy(sec, ptype, rule)`. -/
def CasbinModel.AddPolicy (m : CasbinModel) (sec ptype : GoString) (rule : List GoString) :
    CasbinModel :=
  { m with policies := m.policies ++ [(sec, ptype, rule)] }

/-- The replacement loop of `strings.ReplaceAll`, for a non-empty `old`. -/
def replaceAllAux (old new : GoString) : Nat → GoString → GoString
  | 0, s => s
  | _ + 1, [] => []
  | fuel + 1, b :: rest =>
    if old.isPrefixOf (b :: rest) then new ++ replaceAllAux old new fuel ((b :: rest).drop old.length)
    else b :: replaceAllAux old new fuel rest

/-- Go `strings.ReplaceAll(s, old, new)` for a non-empty `old`: the occurrences of `old` are
replaced from left to right, without overlap. -/
def ReplaceAll (s old new : GoString) : GoString := replaceAllAux old new s.length s

/-- The grammar sections of `setupModel`: the statements from `requestDefinition := ...` to the
last `AddDef`. `replaceVarNames` is not among the sources and is a parameter. -/
def setupModelDefs (replaceVarNames : GoString → GoString) (loadedModel : Model)
    (casbModel : CasbinModel) : CasbinModel :=
  let requestDefinition := go "sub, obj, act"
  let policyDefinition := go "sub, obj, act, eft"
  let roleDefinition := go "_, _"
  let policyEffect := go "subjectPriority(p.eft) || deny"
  let matchersDefinition := go "" ++ go "(" ++
    go "\t((p.sub == '$owner' && isOwner(r.sub, r.obj, p.obj)) || g(r.sub, p.sub)) && keyMatch(r.obj, p.obj) && (g(r.act, p.act) || keyMatch(r.act, p.act))" ++
    go ")"
  let requestDefinition :=
    if loadedModel.Config.Casbin.RequestDefinition ≠ go "" then
      loadedModel.Config.Casbin.RequestDefinition
    else requestDefinition
  let policyDefinition :=
    if loadedModel.Config.Casbin.PolicyDefinition ≠ go "" then
      loadedModel.Config.Casbin.PolicyDefinition
    else policyDefinition
  let roleDefinition :=
    if loadedModel.Config.Casbin.RoleDefinition ≠ go "" then
      loadedModel.Config.Casbin.RoleDefinition
    else roleDefinition
  let policyEffect :=
    if loadedModel.Config.Casbin.PolicyEffect ≠ go "" then
      ReplaceAll loadedModel.Config.Casbin.PolicyEffect (go "$default") policyEffect
    else policyEffect
  let matchersDefinition :=
    if loadedModel.Config.Casbin.MatchersDefinition ≠ go "" then
      ReplaceAll loadedModel.Config.Casbin.MatchersDefinition (go "$default")
        (go " ( " ++ matchersDefinition ++ go " ) ")
    else matchersDefinition
  let casbModel := casbModel.AddDef (go "r") (go "r") (replaceVarNames requestDefinition)
  let casbModel := casbModel.AddDef (go "p") (go "p") (replaceVarNames policyDefinition)
  let casbModel := casbModel.AddDef (go "g") (go "g") (replaceVarNames roleDefinition)
  let casbModel := casbModel.AddDef (go "e") (go "e") (replaceVarNames policyEffect)
  casbModel.AddDef (go "m") (go "m") (replaceVarNames matchersDefinition)

/-- The policy rows of `setupModel`: the statements from `if len(...Policies) > 0` to the last
`AddPolicy`. -/
def setupModelPolicies (replaceVarNames : GoString → GoString) (loadedModel : Model)
    (casbModel : CasbinModel) : CasbinModel :=
  let config := loadedModel.Config
  let casbModel :=
    if loadedModel.Config.Casbin.Policies.length > 0 then
      loadedModel.Config.Casbin.Policies.foldl
        (fun casbModel p => casbModel.AddPolicy (go "p") (go "p") [replaceVarNames p]) casbModel
    else
      let casbModel := casbModel.AddPolicy (go "p") (go "p")
        [replaceVarNames (go "$authenticated,*,read,allow")]
      casbModel.AddPolicy (go "p") (go "p") [replaceVarNames (go "$owner,*,write,allow")]
  if config.Base = go "User" then
    let casbModel := casbModel.AddPolicy (go "p") (go "p")
      [replaceVarNames (go "$everyone,*,create,allow")]
    let casbModel := casbModel.AddPolicy (go "p") (go "p")
      [replaceVarNames (go "$everyone,*,login,allow")]
    let casbModel := casbModel.AddPolicy (go "p") (go "p")
      [replaceVarNames (go "$owner,*,*,allow")]
    casbModel.AddPolicy (go "p") (go "p") [replaceVarNames (go "$authenticated,*,findSelf,allow")]
  else casbModel

/-- The Casbin model `setupModel` builds: from `casbinmodel.NewModel()` through the grammar
sections to the policy rows. -/
def setupModelCasbin (replaceVarNames : GoString → GoString) (loadedModel : Model) :
    CasbinModel :=
  setupModelPolicies replaceVarNames loadedModel
    (setupModelDefs replaceVarNames loadedModel NewModel)

/-- The policy rows added at setup: the rules of the `AddPolicy` calls, in order. -/
def policyRows (replaceVarNames : GoString → GoString) (loadedModel : Model) :
    List (List GoString) :=
  (setupModelCasbin replaceVarNames loadedModel).policies.map (fun p => p.2.2)

/-! ## The before-save observer -/

/-- The field `IsNewInstance`. -/
def EventContext.IsNewInstance : EventContext → Bool
  | .mk _ _ _ _ n _ _ _ _ => n

/-- The collaborators of the before-save observer: the two readings of `time.Now()`,
`loadedModel.FindOne` for a filter with the given `Where`, and
`bcrypt.GenerateFromPassword(password, 10)` read as a string. -/
structure SaveCollaborators where
  modifiedNow : Int
  createdNow : Int
  FindOne : GoMap → Except GoError (Option Instance)
  GenerateFromPassword : GoString → Except GoError GoString

/-- The comparison `v == ""` of an interface value with the empty string. -/
def Value.isEmptyString : Value → Bool
  | .string [] => true
  | _ => false

/-- The error of the observer for a missing or blank email. -/
def emailPresence : GoError :=
  CreateError ErrBadRequest (go "EMAIL_PRESENCE")
    [(go "message", .string (go "Invalid email")),
     (go "codes", .M [(go "email", .strings [go "presence"])])] (go "ValidationError")

/-- The error of the observer for an email that is already stored. -/
def emailUniqueness (email : GoString) : GoError :=
  CreateError ErrConflict (go "EMAIL_UNIQUENESS")
    [(go "message", .string
        (go "The `user` instance is not valid. Details: `email` Email already exists (value: \"" ++
          email ++ go "\").")),
     (go "codes", .M [(go "email", .strings [go "uniqueness"])])] (go "ValidationError")

/-- The error of the observer for a username that is already stored. -/
def usernameUniqueness (username : GoString) : GoError :=
  CreateError ErrConflict (go "USERNAME_UNIQUENESS")
    [(go "message", .string
        (go "The `user` instance is not valid. Details: `username` User already exists (value: \"" ++
          username ++ go "\").")),
     (go "codes", .M [(go "username", .strings [go "uniqueness"])])] (go "ValidationError")

/-- The error of the observer for a missing or blank password on creation. -/
def passwordBlank : GoError :=
  CreateError ErrBadRequest (go "PASSWORD_BLANK")
    [(go "message", .string (go "Invalid password"))] (go "ValidationError")

/-- The end of the creation branch for a `User` model: the password is checked, hashed and
stored. -/
def beforeSaveHashNew (env : SaveCollaborators) (ctx : EventContext) : HandlerResult :=
  let data := ctx.Data
  match nilOrBlank (mapGet data (go "password")) with
  | none => .panic
  | some true => .returned ctx (some passwordBlank)
  | some false =>
    match (mapGet data (go "password")).assertString with
    | none => .panic
    | some password =>
      match env.GenerateFromPassword password with
      | .error err => .returned ctx (some err)
      | .ok hashed =>
        .returned (ctx.setData (mapSet data (go "password") (.string hashed))) none

/-- The creation branch of the observer for a `User` model: email presence and uniqueness,
username uniqueness, password. -/
def beforeSaveNewUser (env : SaveCollaborators) (ctx : EventContext) : HandlerResult :=
  let data := ctx.Data
  let email := mapGet data (go "email")
  match nilOrBlank email, email.assertString with
  | none, _ => .panic
  | some true, _ => .returned ctx (some emailPresence)
  | some false, none => .panic
  | some false, some emailString =>
    match env.FindOne [(go "email", email)] with
    | .error err2 => .returned ctx (some err2)
    | .ok (some _) => .returned ctx (some (emailUniqueness emailString))
    | .ok none =>
      let username := mapGet data (go "username")
      match nilOrBlank username, username.assertString with
      | none, _ => .panic
      | some true, _ => beforeSaveHashNew env ctx
      | some false, none => .panic
      | some false, some usernameString =>
        match env.FindOne [(go "username", username)] with
        | .error err2 => .returned ctx (some err2)
        | .ok (some _) => .returned ctx (some (usernameUniqueness usernameString))
        | .ok none => beforeSaveHashNew env ctx

/-- The update branch of the observer for a `User` model:
`if (*data)["password"] != nil && (*data)["password"] != ""` the password is hashed. -/
def beforeSaveUpdateUser (env : SaveCollaborators) (ctx : EventContext) : HandlerResult :=
  let data := ctx.Data
  let password := mapGet data (go "password")
  if !password.isNil && !password.isEmptyString then
    match password.assertString with
    | none => .panic
    | some plain =>
      match env.GenerateFromPassword plain with
      | .error err => .returned ctx (some err)
      | .ok hashed =>
        .returned (ctx.setData (mapSet data (go "password") (.string hashed))) none
  else .returned ctx none

/-- The observer registered for `before save` by `setupModel`, for a model with the
configuration `config`. -/
def beforeSave (env : SaveCollaborators) (config : Config) (ctx : EventContext) :
    HandlerResult :=
  let ctx :=
    if (mapGet ctx.Data (go "modified")).isNil then
      ctx.setData (mapSet ctx.Data (go "modified") (.time env.modifiedNow))
    else ctx
  if ctx.IsNewInstance then
    let ctx :=
      if (mapGet ctx.Data (go "created")).isNil then
        ctx.setData (mapSet ctx.Data (go "created") (.time env.createdNow))
      else ctx
    if config.Base = go "User" then beforeSaveNewUser env ctx
    else .returned ctx none
  else
    if config.Base = go "User" then beforeSaveUpdateUser env ctx
    else .returned ctx none

/-! ## Container accessors -/

/-- Go `Instance.GetM(path)`: the normalized mapping, `none` for the nil pointer. -/
def Instance.GetM (JsonPathLookup : GoMap → GoString → Except GoError Value)
    (modelInstance : Instance) (path : GoString) : Option GoMap :=
  match JsonPathLookup modelInstance.data (jsonPath path) with
  | .error _ => none
  | .ok res =>
    match res with
    | .M v => some v
    | .primitiveM m => some (CopyMap m)
    | .map m => some (CopyMap m)
    | _ => none

/-- The loop of `GetA` over a `primitive.A`: every element is asserted to be a `primitive.M`
and copied; `none` is the panic of the assertion `v.(primitive.M)`. -/
def copyPrimitiveA : List Value → Option (List GoMap)
  | [] => some []
  | .primitiveM m :: rest =>
    match copyPrimitiveA rest with
    | none => none
    | some out => some (CopyMap m :: out)
  | _ :: _ => none

/-- The loop of `GetA` over a `[]interface{}`: an element that is a `wst.M` or a `primitive.M`
is copied, any other element leaves an empty `wst.M`. -/
def copySlice (a : List Value) : List GoMap :=
  a.map (fun v =>
    match v with
    | .M m => CopyMap m
    | .primitiveM m => CopyMap m
    | _ => [])

/-- Go `Instance.GetA(path)`: the normalized sequence; `some none` is the nil pointer, `none`
a panic. -/
def Instance.GetA (JsonPathLookup : GoMap → GoString → Except GoError Value)
    (modelInstance : Instance) (path : GoString) : Option (Option (List GoMap)) :=
  match JsonPathLookup modelInstance.data (jsonPath path) with
  | .error _ => some none
  | .ok res =>
    match res with
    | .A v => some (some v)
    | .primitiveA a =>
      match copyPrimitiveA a with
      | none => none
      | some out => some (some out)
    | .slice a => some (some (copySlice a))
    | .mapSlice a => some (some (a.map CopyMap))
    | _ => some none

/-! ## Grammar sections -/

/-- The default matcher of `setupModel`. -/
def defaultMatchersDefinition : GoString :=
  go "" ++ go "(" ++
    go "\t((p.sub == '$owner' && isOwner(r.sub, r.obj, p.obj)) || g(r.sub, p.sub)) && keyMatch(r.obj, p.obj) && (g(r.act, p.act) || keyMatch(r.act, p.act))" ++
    go ")"

/-- The five sections `setupModel` hands to `replaceVarNames` and `AddDef`. -/
structure GrammarSections where
  requestDefinition : GoString
  policyDefinition : GoString
  roleDefinition : GoString
  policyEffect : GoString
  matchersDefinition : GoString
  deriving DecidableEq, Repr

/-- The sections of `setupModel` after the five override tests, before `replaceVarNames`. -/
def grammarSections (loadedModel : Model) : GrammarSections :=
  let requestDefinition := go "sub, obj, act"
  let policyDefinition := go "sub, obj, act, eft"
  let roleDefinition := go "_, _"
  let policyEffect := go "subjectPriority(p.eft) || deny"
  let matchersDefinition := defaultMatchersDefinition
  let requestDefinition :=
    if loadedModel.Config.Casbin.RequestDefinition ≠ go "" then
      loadedModel.Config.Casbin.RequestDefinition
    else requestDefinition
  let policyDefinition :=
    if loadedModel.Config.Casbin.PolicyDefinition ≠ go "" then
      loadedModel.Config.Casbin.PolicyDefinition
    else policyDefinition
  let roleDefinition :=
    if loadedModel.Config.Casbin.RoleDefinition ≠ go "" then
      loadedModel.Config.Casbin.RoleDefinition
    else roleDefinition
  let policyEffect :=
    if loadedModel.Config.Casbin.PolicyEffect ≠ go "" then
      ReplaceAll loadedModel.Config.Casbin.PolicyEffect (go "$default") policyEffect
    else policyEffect
  let matchersDefinition :=
    if loadedModel.Config.Casbin.MatchersDefinition ≠ go "" then
      ReplaceAll loadedModel.Config.Casbin.MatchersDefinition (go "$default")
        (go " ( " ++ matchersDefinition ++ go " ) ")
    else matchersDefinition
  ⟨requestDefinition, policyDefinition, roleDefinition, policyEffect, matchersDefinition⟩

/-! ## Example configurations -/

/-- A Casbin configuration with nothing declared. -/
def emptyCasbin : CasbinConfig := ⟨[], [], [], [], [], []⟩

/-- A model with the given name, base type and relations, nothing else declared. -/
def plainModel (name base : GoString) (relations : List (GoString × Relation)) : Model :=
  ⟨name, name, ⟨name, [], base, true, [], relations, emptyCasbin⟩⟩

/-- A registry holding the models `User` and `Tag`. -/
def blogRegistry : ModelRegistry :=
  [(go "User", plainModel (go "User") (go "User") []),
   (go "Tag", plainModel (go "Tag") (go "PersistedModel") [])]

/-- The relations of the example model `Post`: its author, its tags, and a relation to a model
that is not registered. -/
def postRelations : List (GoString × Relation) :=
  [(go "author", ⟨go "belongsTo", go "User", none, none⟩),
   (go "tags", ⟨go "hasMany", go "Tag", none, none⟩),
   (go "audit", ⟨go "hasOne", go "AuditLog", none, none⟩)]

/-- The example model `Post`. -/
def postModel : Model := plainModel (go "Post") (go "PersistedModel") postRelations

/-- A registry holding a model whose name starts with a two-byte character. -/
def accentRegistry : ModelRegistry :=
  [(go "Élan", plainModel (go "Élan") (go "PersistedModel") [])]

/-- A model with one `belongsTo` relation to the model `Élan`. -/
def riderModel : Model :=
  plainModel (go "Rider") (go "PersistedModel")
    [(go "elan", ⟨go "belongsTo", go "Élan", none, none⟩)]

/-- A model whose name is the empty string, with a `hasMany` relation to a registered model and
a relation to a model that is not registered. -/
def namelessModel : Model :=
  plainModel [] (go "PersistedModel")
    [(go "audit", ⟨go "hasOne", go "AuditLog", none, none⟩),
     (go "tags", ⟨go "hasMany", go "Tag", none, none⟩)]

/-- The example model `User`. -/
def userModel : Model := plainModel (go "User") (go "User") []

/-- A stored user; its password field holds a hash. -/
def userInstance : Instance :=
  .mk userModel (.objectID [1, 2, 3, 4, 5, 6, 7, 8, 9, 10, 11, 12])
    [(go "email", .string (go "ann@example.org")), (go "password", .string (go "$2a$10$hash")),
     (go "active", .bool true)] []

/-- A post whose relation `author` is materialized. -/
def postInstance : Instance :=
  .mk postModel (.string (go "p1"))
    [(go "title", .string (go "old")), (go "author", .instancePtr (some userInstance))] []

/-- The record of the post as the storage returns it: no relation field. -/
def postRecord : Instance :=
  .mk postModel (.string (go "p1")) [(go "title", .string (go "new"))] []

/-- A `FindById` that finds the record of the post. -/
def findPostRecord : Value → Except GoError (Option Instance) :=
  fun _ => .ok (some postRecord)

/-- A `bson.Marshal` that succeeds. -/
def marshalOk : GoMap → Except GoError (List Nat) :=
  fun _ => .ok [0]

/-- A `strconv.FormatFloat` stand-in for the examples. -/
def formatFloatStub : Float64 → GoString := fun _ => go "0"

/-- A `strconv.ParseFloat` stand-in for the examples. -/
def parseFloatStub : GoString → Except GoError Float64 :=
  fun _ => .error (.other (go "invalid syntax"))

/-- A before-save handler that stores a value under the relation name `author`. -/
def addAuthorHandler : Handler :=
  fun ctx => .returned (ctx.setData (mapSet ctx.Data (go "author") (.string (go "u1")))) none

/-- Collaborators whose storage accepts every update and whose handlers all store a value under
a relation name. -/
def storageEnv : Collaborators where
  FindModel := fun _ => .ok none
  ReplaceObjectIds := fun m => m
  DisabledHandlers := fun _ => false
  GetHandler := fun _ => addAuthorHandler
  UpdateById := fun _ _ m => .ok (some m)
  FindById := findPostRecord
  Marshal := marshalOk

/-- An update payload that holds a value under the relation name `tags`. -/
def postUpdate : Value :=
  .M [(go "title", .string (go "new")), (go "tags", .string (go "t1"))]

/-- A model that is not of base `User` and declares no policy. -/
def tagModel : Model := plainModel (go "Tag") (go "PersistedModel") []

/-- A model of base `User` that declares one policy of its own. -/
def accountModel : Model :=
  ⟨go "Account", go "Account",
    ⟨go "Account", [], go "User", true, [], [],
      { emptyCasbin with Policies := [go "admin,*,*,allow"] }⟩⟩

/-- Login collaborators: the only stored user is the example user, and the hash check accepts
the password `secret` only. -/
def loginEnv : LoginCollaborators where
  FindMany := fun email =>
    if email = go "ann@example.org" then ([userInstance], none) else ([], none)
  CompareHashAndPassword := fun _ password => decide (password = go "secret")
  roleMappingFindMany := none
  SignedString := fun _ => go "token"
  now := 0
  FindModel := fun _ => .ok none

/-- The event context of a login request with the given payload. -/
def loginContext (data : GoMap) : EventContext := EventContext.zero.setData data

/-- A login payload with an unknown email. -/
def unknownEmailPayload : GoMap :=
  [(go "email", .string (go "bob@example.org")), (go "password", .string (go "secret"))]

/-- A login payload with the email of the example user and a wrong password. -/
def wrongPasswordPayload : GoMap :=
  [(go "email", .string (go "ann@example.org")), (go "password", .string (go "guess"))]

/-- A login payload without a password. -/
def noPasswordPayload : GoMap := [(go "email", .string (go "ann@example.org"))]

/-- A login payload whose email is blank. -/
def blankEmailPayload : GoMap :=
  [(go "email", .string (go "  ")), (go "password", .string (go "secret"))]

/-- The credential is absent (nil) or a blank string. -/
def absentOrBlank (v : Value) : Prop :=
  v = .nil ∨ ∃ s, v = .string s ∧ TrimSpace s = go ""

/-- The credential is a string that is not blank. -/
def nonBlankString (v : Value) : Prop :=
  ∃ s, v = .string s ∧ TrimSpace s ≠ go ""

/-- The event context of an update (not a new instance) with the given payload. -/
def updateContext (data : GoMap) : EventContext :=
  .mk none data none .nil false false none 0 .nil

/-- Before-save collaborators: nothing is stored yet, and the hash of a password is the
password behind a fixed prefix. -/
def saveEnv : SaveCollaborators where
  modifiedNow := 1000
  createdNow := 1000
  FindOne := fun _ => .ok none
  GenerateFromPassword := fun password => .ok (go "$2a$10$" ++ password)

/-- A stored record with a 32-bit counter, a `primitive.A` of strings and a `[]interface{}`
of strings. -/
def counterInstance : Instance :=
  .mk tagModel (.string (go "t1"))
    [(go "count", .int32 5), (go "tags", .primitiveA [.string (go "a")]),
     (go "labels", .slice [.string (go "a")]), (go "name", .string (go "x")),
     (go "meta", .primitiveM [(go "k", .int 1)])] []

/-- A model that overrides the request definition with a reference to the default. -/
def tenantModel : Model :=
  ⟨go "Tenant", go "Tenant",
    ⟨go "Tenant", [], go "PersistedModel", true, [], [],
      { emptyCasbin with RequestDefinition := go "$default, tenant" }⟩⟩

/-- A model that overrides the matcher with a reference to the default. -/
def guardedModel : Model :=
  ⟨go "Guarded", go "Guarded",
    ⟨go "Guarded", [], go "PersistedModel", true, [], [],
      { emptyCasbin with MatchersDefinition := go "$default && r.sub != 'x'" }⟩⟩

/-! # Theorems -/

/-! ## fixRelations -/

theorem lowerFirst_of_ne_nil (name : GoString) (h : name ≠ []) :
    ∃ s, lowerFirst name = some s := by
  cases name with
  | nil => exact absurd rfl h
  | cons b rest => exact ⟨_, rfl⟩

theorem lowerFirst_of_startsWithASCII (name : GoString) (h : startsWithASCII name = true) :
    lowerFirst name = some (lowerFirstASCII name) := by
  cases name with
  | nil => simp [startsWithASCII] at h
  | cons b rest =>
    have hb : b < 0x80 := by simpa [startsWithASCII] using h
    simp [lowerFirst, lowerFirstASCII, ToLowerByte, hb]

theorem belongsTo_ne_hasOne : go "belongsTo" ≠ go "hasOne" := by decide

theorem belongsTo_ne_hasMany : go "belongsTo" ≠ go "hasMany" := by decide

/-- The loop succeeds as soon as every step does, and relates the relations pairwise. -/
theorem fixRelationsLoop_forall₂ (registry : ModelRegistry) (ownerName : GoString)
    (P : Relation → Relation → Prop) (rels : List (GoString × Relation))
    (hstep : ∀ kr ∈ rels, ∃ r', fixRelation registry ownerName kr.2 = some r' ∧ P kr.2 r') :
    ∃ rels', fixRelationsLoop registry ownerName rels = some rels' ∧
      List.Forall₂ (fun kr kr' => kr'.1 = kr.1 ∧ P kr.2 kr'.2) rels rels' := by
  induction rels with
  | nil => exact ⟨[], rfl, List.Forall₂.nil⟩
  | cons kr rest ih =>
    obtain ⟨r', hr', hP⟩ := hstep kr (List.mem_cons_self _ _)
    obtain ⟨rest', hrest, hall⟩ := ih (fun x hx => hstep x (List.mem_cons_of_mem _ hx))
    obtain ⟨k, r⟩ := kr
    refine ⟨(k, r') :: rest', ?_, List.Forall₂.cons ⟨rfl, hP⟩ hall⟩
    simp only [fixRelationsLoop]
    simp only at hr'
    rw [hr', hrest]

/-- A relation whose target is not registered is returned as it is. -/
theorem fixRelation_unregistered (registry : ModelRegistry) (ownerName : GoString)
    (relation : Relation) (h : mapLookup registry relation.Model = none) :
    fixRelation registry ownerName relation = some relation := by
  simp [fixRelation, h]

/-- One step of the loop, for a relation with a registered target, when no key is derived from
an empty name. -/
theorem fixRelation_registered (registry : ModelRegistry) (ownerName : GoString)
    (relation : Relation) (hreg : (mapLookup registry relation.Model).isSome = true)
    (hne : relation.ForeignKey = none →
      (relation.Type_ = go "belongsTo" → relation.Model ≠ []) ∧
      (relation.Type_ = go "hasOne" ∨ relation.Type_ = go "hasMany" → ownerName ≠ [])) :
    ∃ r', fixRelation registry ownerName relation = some r' ∧
      r'.Type_ = relation.Type_ ∧ r'.Model = relation.Model ∧
      r'.PrimaryKey = some (relation.PrimaryKey.getD (go "_id")) ∧
      (∀ fk, relation.ForeignKey = some fk → r'.ForeignKey = some fk) ∧
      (relation.ForeignKey = none →
        (relation.Type_ = go "belongsTo" →
          ∃ s, lowerFirst relation.Model = some s ∧ r'.ForeignKey = some (s ++ go "Id")) ∧
        (relation.Type_ = go "hasOne" ∨ relation.Type_ = go "hasMany" →
          ∃ s, lowerFirst ownerName = some s ∧ r'.ForeignKey = some (s ++ go "Id"))) := by
  obtain ⟨ty, target, pk, fk⟩ := relation
  simp only at hreg hne ⊢
  obtain ⟨m, hm⟩ := Option.isSome_iff_exists.mp hreg
  cases fk with
  | some fk =>
    refine ⟨⟨ty, target, some (pk.getD (go "_id")), some fk⟩, ?_, rfl, rfl, rfl, ?_, ?_⟩
    · cases pk <;> simp [fixRelation, hm]
    · intro fk' h; exact h
    · intro h; cases h
  | none =>
    have hne' := hne rfl
    by_cases hb : ty = go "belongsTo"
    · obtain ⟨s, hs⟩ := lowerFirst_of_ne_nil target (hne'.1 hb)
      refine ⟨⟨ty, target, some (pk.getD (go "_id")), some (s ++ go "Id")⟩, ?_, rfl, rfl, rfl,
        ?_, ?_⟩
      · cases pk <;> simp [fixRelation, hm, hb, hs]
      · intro fk' h; cases h
      · intro _
        refine ⟨fun _ => ⟨s, hs, rfl⟩, ?_⟩
        intro h
        rcases h with h | h
        · exact absurd (hb.symm.trans h) belongsTo_ne_hasOne
        · exact absurd (hb.symm.trans h) belongsTo_ne_hasMany
    · by_cases ho : ty = go "hasOne" ∨ ty = go "hasMany"
      · obtain ⟨s, hs⟩ := lowerFirst_of_ne_nil ownerName (hne'.2 ho)
        refine ⟨⟨ty, target, some (pk.getD (go "_id")), some (s ++ go "Id")⟩, ?_, rfl, rfl, rfl,
          ?_, ?_⟩
        · cases pk <;> simp [fixRelation, hm, hb, ho, hs]
        · intro fk' h; cases h
        · intro _
          exact ⟨fun h => absurd h hb, fun _ => ⟨s, hs, rfl⟩⟩
      · refine ⟨⟨ty, target, some (pk.getD (go "_id")), none⟩, ?_, rfl, rfl, rfl, ?_, ?_⟩
        · cases pk <;> simp [fixRelation, hm, hb, ho]
        · intro fk' h; cases h
        · intro _
          exact ⟨fun h => absurd h hb, fun h => absurd h ho⟩

theorem go_cons (c : Char) (cs : List Char) :
    go (String.mk (c :: cs)) = utf8EncodeChar c ++ go (String.mk cs) := by
  simp [go]

theorem postModel_derivedNamesNonEmpty : derivedNamesNonEmpty blogRegistry postModel := by
  intro kr hkr _
  have hname : postModel.Name ≠ [] := by decide
  refine ⟨fun hb => ?_, fun _ => hname⟩
  simp only [postModel, plainModel, postRelations, List.mem_cons, List.mem_singleton,
    List.mem_nil_iff, or_false] at hkr
  rcases hkr with h | h | h <;> subst h <;> revert hb <;> decide

/-- C1 (amended): when no foreign key of the model is derived from an empty name,
`fixRelations` completes, keeps the relation names, and for every relation whose target model is
registered and whose foreign key is unspecified: if the type is `belongsTo` and the target model
name starts with an ASCII character, the foreign key becomes that name with its first character
lower-cased and the rest unchanged, followed by `Id`; if the type is `hasOne` or `hasMany` and
the owning model name starts with an ASCII character, it becomes the owning model name with its
first character lower-cased and the rest unchanged, followed by `Id`. -/
theorem fixRelations_foreignKey (registry : ModelRegistry) (loadedModel : Model)
    (hne : derivedNamesNonEmpty registry loadedModel) :
    ∃ m', fixRelations registry loadedModel = some m' ∧
      List.Forall₂ (fun kr kr' => kr'.1 = kr.1 ∧
        (needsForeignKey registry kr.2 →
          (kr.2.Type_ = go "belongsTo" → startsWithASCII kr.2.Model = true →
            kr'.2.ForeignKey = some (lowerFirstASCII kr.2.Model ++ go "Id")) ∧
          (kr.2.Type_ = go "hasOne" ∨ kr.2.Type_ = go "hasMany" →
            startsWithASCII loadedModel.Name = true →
            kr'.2.ForeignKey = some (lowerFirstASCII loadedModel.Name ++ go "Id"))))
        loadedModel.Config.Relations m'.Config.Relations := by
  obtain ⟨rels', hloop, hall⟩ := fixRelationsLoop_forall₂ registry loadedModel.Name
    (fun r r' => needsForeignKey registry r →
      (r.Type_ = go "belongsTo" → startsWithASCII r.Model = true →
        r'.ForeignKey = some (lowerFirstASCII r.Model ++ go "Id")) ∧
      (r.Type_ = go "hasOne" ∨ r.Type_ = go "hasMany" →
        startsWithASCII loadedModel.Name = true →
        r'.ForeignKey = some (lowerFirstASCII loadedModel.Name ++ go "Id")))
    loadedModel.Config.Relations (by
      intro kr hkr
      cases hreg : mapLookup registry kr.2.Model with
      | none =>
        refine ⟨kr.2, fixRelation_unregistered registry _ _ hreg, ?_⟩
        intro hneed
        simp [needsForeignKey, hreg] at hneed
      | some m =>
        have hreg' : (mapLookup registry kr.2.Model).isSome = true := by simp [hreg]
        obtain ⟨r', hr', -, -, -, -, hfk⟩ := fixRelation_registered registry loadedModel.Name
          kr.2 hreg' (fun h => hne kr hkr ⟨hreg', h⟩)
        refine ⟨r', hr', ?_⟩
        intro hneed
        obtain ⟨hb, ho⟩ := hfk hneed.2
        constructor
        · intro hty hascii
          obtain ⟨s, hs, hr⟩ := hb hty
          rw [lowerFirst_of_startsWithASCII _ hascii] at hs
          rw [hr, ← Option.some.inj hs]
        · intro hty hascii
          obtain ⟨s, hs, hr⟩ := ho hty
          rw [lowerFirst_of_startsWithASCII _ hascii] at hs
          rw [hr, ← Option.some.inj hs])
  refine ⟨{ loadedModel with Config := { loadedModel.Config with Relations := rels' } }, ?_, hall⟩
  simp [fixRelations, hloop]

/-- C1, witness: the example model `Post` in the example registry. -/
theorem fixRelations_foreignKey_witness :
    derivedNamesNonEmpty blogRegistry postModel ∧
    ∃ m', fixRelations blogRegistry postModel = some m' ∧
      List.Forall₂ (fun kr kr' => kr'.1 = kr.1 ∧
        (needsForeignKey blogRegistry kr.2 →
          (kr.2.Type_ = go "belongsTo" → startsWithASCII kr.2.Model = true →
            kr'.2.ForeignKey = some (lowerFirstASCII kr.2.Model ++ go "Id")) ∧
          (kr.2.Type_ = go "hasOne" ∨ kr.2.Type_ = go "hasMany" →
            startsWithASCII postModel.Name = true →
            kr'.2.ForeignKey = some (lowerFirstASCII postModel.Name ++ go "Id"))))
        postModel.Config.Relations m'.Config.Relations :=
  ⟨postModel_derivedNamesNonEmpty,
    fixRelations_foreignKey blogRegistry postModel postModel_derivedNamesNonEmpty⟩

/-- C1, counterexample: the target model is named `Élan`, it is registered and the `belongsTo`
relation has no foreign key. `fixRelations` sets the key to the bytes
`EF BF BD 89 6C 61 6E 49 64`: the first byte of the two-byte character `É` is replaced by the
encoding of U+FFFD and its second byte stays. Whatever character `É` is lower-cased to, this
is not that character followed by `lan` and `Id`. -/
theorem fixRelations_foreignKey_nonASCII :
    needsForeignKey accentRegistry ⟨go "belongsTo", go "Élan", none, none⟩ ∧
    (fixRelations accentRegistry riderModel).map
        (fun m => m.Config.Relations.map (fun kr => (kr.1, kr.2.ForeignKey))) =
      some [(go "elan", some [0xEF, 0xBF, 0xBD, 0x89, 0x6C, 0x61, 0x6E, 0x49, 0x64])] ∧
    ¬ ∃ c : Char, [0xEF, 0xBF, 0xBD, 0x89, 0x6C, 0x61, 0x6E, 0x49, 0x64] =
        go (String.mk [c, 'l', 'a', 'n']) ++ go "Id" := by
  refine ⟨by decide, by decide, ?_⟩
  rintro ⟨c, hc⟩
  rw [go_cons] at hc
  have h1 : go (String.mk ['l', 'a', 'n']) = [0x6C, 0x61, 0x6E] := by decide
  have h2 : go "Id" = [0x49, 0x64] := by decide
  rw [h1, h2] at hc
  unfold utf8EncodeChar at hc
  simp only at hc
  split_ifs at hc <;> simp at hc
  omega

/-- C10 (amended): when no foreign key of the model is derived from an empty name,
`fixRelations` completes, keeps the relation names, returns every relation whose target model
is not registered exactly as it was (primary and foreign key included), and resolves the
others: a relation with a registered target gets its primary key (`_id` when it was unset) and,
for the types `belongsTo`, `hasOne` and `hasMany`, a foreign key. -/
theorem fixRelations_unregistered_inert (registry : ModelRegistry) (loadedModel : Model)
    (hne : derivedNamesNonEmpty registry loadedModel) :
    ∃ m', fixRelations registry loadedModel = some m' ∧
      List.Forall₂ (fun kr kr' => kr'.1 = kr.1 ∧
        (mapLookup registry kr.2.Model = none → kr'.2 = kr.2) ∧
        ((mapLookup registry kr.2.Model).isSome = true →
          kr'.2.PrimaryKey = some (kr.2.PrimaryKey.getD (go "_id")) ∧
          (kr.2.Type_ = go "belongsTo" ∨ kr.2.Type_ = go "hasOne" ∨ kr.2.Type_ = go "hasMany" →
            kr'.2.ForeignKey ≠ none)))
        loadedModel.Config.Relations m'.Config.Relations := by
  obtain ⟨rels', hloop, hall⟩ := fixRelationsLoop_forall₂ registry loadedModel.Name
    (fun r r' => (mapLookup registry r.Model = none → r' = r) ∧
      ((mapLookup registry r.Model).isSome = true →
        r'.PrimaryKey = some (r.PrimaryKey.getD (go "_id")) ∧
        (r.Type_ = go "belongsTo" ∨ r.Type_ = go "hasOne" ∨ r.Type_ = go "hasMany" →
          r'.ForeignKey ≠ none)))
    loadedModel.Config.Relations (by
      intro kr hkr
      cases hreg : mapLookup registry kr.2.Model with
      | none =>
        exact ⟨kr.2, fixRelation_unregistered registry _ _ hreg, fun _ => rfl,
          fun h => by simp [hreg] at h⟩
      | some m =>
        have hreg' : (mapLookup registry kr.2.Model).isSome = true := by simp [hreg]
        obtain ⟨r', hr', -, -, hpk, hkeep, hfk⟩ := fixRelation_registered registry
          loadedModel.Name kr.2 hreg' (fun h => hne kr hkr ⟨hreg', h⟩)
        refine ⟨r', hr', fun h => by simp [hreg] at h, fun _ => ⟨hpk, ?_⟩⟩
        intro hty
        cases hold : kr.2.ForeignKey with
        | some fk => rw [hkeep fk hold]; simp
        | none =>
          obtain ⟨hb, ho⟩ := hfk hold
          rcases hty with hty | hty | hty
          · obtain ⟨s, -, hr⟩ := hb hty
            rw [hr]; simp
          · obtain ⟨s, -, hr⟩ := ho (Or.inl hty)
            rw [hr]; simp
          · obtain ⟨s, -, hr⟩ := ho (Or.inr hty)
            rw [hr]; simp)
  refine ⟨{ loadedModel with Config := { loadedModel.Config with Relations := rels' } }, ?_, hall⟩
  simp [fixRelations, hloop]

/-- C10, witness: the example model `Post`, whose relation `audit` targets a model that is not
registered. -/
theorem fixRelations_unregistered_inert_witness :
    derivedNamesNonEmpty blogRegistry postModel ∧
    ∃ m', fixRelations blogRegistry postModel = some m' ∧
      List.Forall₂ (fun kr kr' => kr'.1 = kr.1 ∧
        (mapLookup blogRegistry kr.2.Model = none → kr'.2 = kr.2) ∧
        ((mapLookup blogRegistry kr.2.Model).isSome = true →
          kr'.2.PrimaryKey = some (kr.2.PrimaryKey.getD (go "_id")) ∧
          (kr.2.Type_ = go "belongsTo" ∨ kr.2.Type_ = go "hasOne" ∨ kr.2.Type_ = go "hasMany" →
            kr'.2.ForeignKey ≠ none)))
        postModel.Config.Relations m'.Config.Relations :=
  ⟨postModel_derivedNamesNonEmpty,
    fixRelations_unregistered_inert blogRegistry postModel postModel_derivedNamesNonEmpty⟩

/-- C10, counterexample: the model's name is the empty string; its relation `audit` targets a
model that is not registered, its relation `tags` is a `hasMany` to a registered model without
a foreign key. `loadedModel.Name[:1]` panics, so `fixRelations` does not complete. -/
theorem fixRelations_panics_on_empty_name :
    mapLookup blogRegistry (go "AuditLog") = none ∧
    (go "audit", (⟨go "hasOne", go "AuditLog", none, none⟩ : Relation)) ∈
      namelessModel.Config.Relations ∧
    fixRelations blogRegistry namelessModel = none := by
  refine ⟨by decide, by decide, by decide⟩

/-! ## Reload -/

/-- Whatever the instance held, a successful `Reload` leaves exactly the data of the re-fetched
record. -/
theorem Reload_data (FindById : Value → Except GoError (Option Instance))
    (Marshal : GoMap → Except GoError (List Nat)) (modelInstance newInstance : Instance)
    (bytes : List Nat) (hfind : FindById modelInstance.Id = .ok (some newInstance))
    (hmarshal : Marshal newInstance.data = .ok bytes) :
    modelInstance.Reload FindById Marshal =
      some (.mk modelInstance.Model modelInstance.Id newInstance.data bytes, none) := by
  obtain ⟨m, id, d, b⟩ := modelInstance
  obtain ⟨m', id', d', b'⟩ := newInstance
  simp only [Instance.Id, Instance.data] at hfind hmarshal
  simp [Instance.Reload, Instance.data, Instance.Model, Instance.Id, Instance.bytes, hfind,
    hmarshal]

/-- C2, the code at the failing input: the post holds its materialized relation `author`, the
re-fetched record carries no relation field, `Reload` succeeds, and afterwards the field
`author` is gone. The two loops of `Reload` do preserve it, but the assignment
`modelInstance.data = newInstance.data` then replaces the whole mapping. -/
theorem Reload_discards_relation_field :
    (mapLookup postInstance.Model.Config.Relations (go "author")).isSome = true ∧
    mapLookup postInstance.data (go "author") = some (.instancePtr (some userInstance)) ∧
    mapLookup
        (copyNonRelations postModel.Config.Relations postRecord.data
          (deleteNonRelations postModel.Config.Relations postInstance.data))
        (go "author") = some (.instancePtr (some userInstance)) ∧
    ∃ after, postInstance.Reload findPostRecord marshalOk = some (after, none) ∧
      mapLookup after.data (go "author") = none := by
  refine ⟨by decide, rfl, rfl, ⟨_, rfl, rfl⟩⟩

/-! ## Path accessors -/

/-- The accessor `GetInt` has no case for a boolean: it answers 0 for `true` and for `false`. -/
theorem GetInt_bool (JsonPathLookup : GoMap → GoString → Except GoError Value)
    (modelInstance : Instance) (path : GoString) (b : Bool)
    (h : JsonPathLookup modelInstance.data (jsonPath path) = .ok (.bool b)) :
    modelInstance.GetInt JsonPathLookup path = 0 := by
  simp [Instance.GetInt, h]

/-- C5, the code at the failing input: the field `active` of the user holds `true`, the lookup
of the path `active` yields that boolean, and `GetInt` returns 0, not 1. -/
theorem GetInt_true_is_zero :
    lookupTopLevel userInstance.data (jsonPath (go "active")) = .ok (.bool true) ∧
    userInstance.GetInt lookupTopLevel (go "active") = 0 := by
  refine ⟨rfl, rfl⟩

/-- C6: when the lookup yields a boolean, `GetFloat64` returns 1 (bit pattern
`0x3FF0000000000000`) for `true` and 0 for `false`, and `GetString` returns `true` or `false`;
when the lookup fails, `GetFloat64` returns 0, `GetInt` returns 0 and `GetString` returns the
empty string. -/
theorem accessors_bool_and_missing (JsonPathLookup : GoMap → GoString → Except GoError Value)
    (FormatFloat : Float64 → GoString) (ParseFloat : GoString → Except GoError Float64)
    (modelInstance : Instance) (path : GoString) :
    (∀ b, JsonPathLookup modelInstance.data (jsonPath path) = .ok (.bool b) →
      modelInstance.GetFloat64 JsonPathLookup ParseFloat path =
        (if b then ⟨0x3FF0000000000000⟩ else ⟨0⟩) ∧
      modelInstance.GetString JsonPathLookup FormatFloat path =
        (if b then go "true" else go "false")) ∧
    (∀ err, JsonPathLookup modelInstance.data (jsonPath path) = .error err →
      modelInstance.GetFloat64 JsonPathLookup ParseFloat path = ⟨0⟩ ∧
      modelInstance.GetInt JsonPathLookup path = 0 ∧
      modelInstance.GetString JsonPathLookup FormatFloat path = []) := by
  have h0 : Float64.ofInt 0 = ⟨0⟩ := by decide
  have h1 : Float64.ofInt 1 = ⟨0x3FF0000000000000⟩ := by decide
  constructor
  · intro b h
    cases b <;> simp [Instance.GetFloat64, Instance.GetString, h, h0, h1, FormatBool]
  · intro err h
    simp [Instance.GetFloat64, Instance.GetInt, Instance.GetString, h, h0]
    decide

/-- C6, witness: the boolean field `active` of the example user, and the path `missing`, which
the lookup does not find. -/
theorem accessors_bool_and_missing_witness :
    lookupTopLevel userInstance.data (jsonPath (go "active")) = .ok (.bool true) ∧
    (userInstance.GetFloat64 lookupTopLevel parseFloatStub (go "active") =
        ⟨0x3FF0000000000000⟩ ∧
      userInstance.GetString lookupTopLevel formatFloatStub (go "active") = go "true") ∧
    (∃ err, lookupTopLevel userInstance.data (jsonPath (go "missing")) = .error err) ∧
    (userInstance.GetFloat64 lookupTopLevel parseFloatStub (go "missing") = ⟨0⟩ ∧
      userInstance.GetInt lookupTopLevel (go "missing") = 0 ∧
      userInstance.GetString lookupTopLevel formatFloatStub (go "missing") = []) :=
  ⟨rfl,
    (accessors_bool_and_missing lookupTopLevel formatFloatStub parseFloatStub userInstance
      (go "active")).1 true rfl,
    ⟨_, rfl⟩,
    (accessors_bool_and_missing lookupTopLevel formatFloatStub parseFloatStub userInstance
      (go "missing")).2 _ rfl⟩

/-! ## UpdateAttributes -/

/-- After the deletion loop no key of the mapping is a relation name. -/
theorem deleteRelations_keys (relations : List (GoString × Relation)) (finalData : GoMap)
    (kv : GoString × Value) (h : kv ∈ deleteRelations relations finalData) :
    kv ∈ finalData ∧ kv.1 ∉ relations.map Prod.fst := by
  induction relations generalizing finalData with
  | nil => exact ⟨h, by simp⟩
  | cons kr rest ih =>
    have h' : kv ∈ deleteRelations rest (mapDelete finalData kr.1) := h
    obtain ⟨hmem, hrest⟩ := ih _ h'
    simp only [mapDelete, List.mem_filter, decide_eq_true_eq] at hmem
    refine ⟨hmem.1, ?_⟩
    simp only [List.map_cons, List.mem_cons, not_or]
    exact ⟨hmem.2, hrest⟩

/-- C7: when `UpdateAttributes` reaches `Datasource.UpdateById`, the mapping it passes holds no
key equal to a relation name of the instance's model, whatever the input, the collaborators and
the before-save handler are. -/
theorem UpdateAttributes_strips_relations (env : Collaborators) (modelInstance : Instance)
    (data : Value) (baseContext : Option EventContext) (collection : GoString) (id : Value)
    (finalData : GoMap)
    (h : (modelInstance.UpdateAttributes env data baseContext).stored =
      some (collection, id, finalData)) :
    ∀ relationName ∈ modelInstance.Model.Config.Relations.map Prod.fst,
      relationName ∉ finalData.map Prod.fst := by
  intro relationName hrel hkey
  obtain ⟨kv, hkv, hk⟩ := List.mem_map.mp hkey
  unfold Instance.UpdateAttributes at h
  split at h
  · simp at h
  · simp at h
  · simp only at h
    split at h
    · simp at h
    · simp at h
    · split at h <;>
      · simp only [Option.some.injEq, Prod.mk.injEq] at h
        obtain ⟨-, -, hfd⟩ := h
        rw [← hfd] at hkv
        exact (deleteRelations_keys _ _ kv hkv).2 (hk ▸ hrel)

/-- C7, witness: the payload holds a value under the relation name `tags` and the before-save
handler stores one under `author`; the mapping that reaches the storage holds the title only. -/
theorem UpdateAttributes_strips_relations_witness :
    (postInstance.UpdateAttributes storageEnv postUpdate none).stored =
      some (go "Post", .string (go "p1"), [(go "title", .string (go "new"))]) ∧
    ∀ relationName ∈ postInstance.Model.Config.Relations.map Prod.fst,
      relationName ∉ ([(go "title", .string (go "new"))] : GoMap).map Prod.fst :=
  ⟨rfl, UpdateAttributes_strips_relations storageEnv postInstance postUpdate none (go "Post")
    (.string (go "p1")) [(go "title", .string (go "new"))] rfl⟩

/-! ## Policy rows -/

theorem AddPolicy_policies (m : CasbinModel) (sec ptype : GoString) (rule : List GoString) :
    (m.AddPolicy sec ptype rule).policies = m.policies ++ [(sec, ptype, rule)] := rfl

/-- The rules added by the loop over the declared policies. -/
theorem foldl_AddPolicy (f : GoString → GoString) (sec ptype : GoString) (ps : List GoString)
    (m : CasbinModel) :
    (ps.foldl (fun casbModel p => casbModel.AddPolicy sec ptype [f p]) m).policies =
      m.policies ++ ps.map (fun p => (sec, ptype, [f p])) := by
  induction ps generalizing m with
  | nil => simp
  | cons p rest ih =>
    simp only [List.foldl_cons, ih, List.map_cons, AddPolicy_policies]
    simp

/-- The `AddPolicy` calls of `setupModel`: the declared policies or the two defaults, then the
four rows of a `User` model. -/
theorem setupModelCasbin_policies (replaceVarNames : GoString → GoString)
    (loadedModel : Model) :
    (setupModelCasbin replaceVarNames loadedModel).policies =
      (if loadedModel.Config.Casbin.Policies.length > 0 then
        loadedModel.Config.Casbin.Policies.map (fun p => (go "p", go "p", [replaceVarNames p]))
      else
        [(go "p", go "p", [replaceVarNames (go "$authenticated,*,read,allow")]),
         (go "p", go "p", [replaceVarNames (go "$owner,*,write,allow")])]) ++
      (if loadedModel.Config.Base = go "User" then
        [(go "p", go "p", [replaceVarNames (go "$everyone,*,create,allow")]),
         (go "p", go "p", [replaceVarNames (go "$everyone,*,login,allow")]),
         (go "p", go "p", [replaceVarNames (go "$owner,*,*,allow")]),
         (go "p", go "p", [replaceVarNames (go "$authenticated,*,findSelf,allow")])]
      else []) := by
  have hdefs : (setupModelDefs replaceVarNames loadedModel NewModel).policies = [] := rfl
  unfold setupModelCasbin setupModelPolicies
  simp only []
  split_ifs <;> simp only [AddPolicy_policies, foldl_AddPolicy, hdefs] <;> simp

/-- C8: a model whose base is not `User` and that declares no policy gets exactly two policy
rows, in this order: the row of `$authenticated,*,read,allow` and the row of
`$owner,*,write,allow`, each passed through `replaceVarNames`. -/
theorem policyRows_default (replaceVarNames : GoString → GoString) (loadedModel : Model)
    (hbase : loadedModel.Config.Base ≠ go "User")
    (hpolicies : loadedModel.Config.Casbin.Policies = []) :
    policyRows replaceVarNames loadedModel =
      [[replaceVarNames (go "$authenticated,*,read,allow")],
       [replaceVarNames (go "$owner,*,write,allow")]] := by
  simp [policyRows, setupModelCasbin_policies, hbase, hpolicies]

/-- C8, witness: the model `Tag`. -/
theorem policyRows_default_witness :
    tagModel.Config.Base ≠ go "User" ∧ tagModel.Config.Casbin.Policies = [] ∧
    policyRows (fun s => s) tagModel =
      [[go "$authenticated,*,read,allow"], [go "$owner,*,write,allow"]] :=
  ⟨by decide, rfl, policyRows_default (fun s => s) tagModel (by decide) rfl⟩

/-- C9 (amended): a model whose base is `User` gets, after the two default rows when it
declares no policy, or after the rows of its declared policies when it declares some, exactly
four more rows: `$everyone,*,create,allow`, `$everyone,*,login,allow`, `$owner,*,*,allow` and
`$authenticated,*,findSelf,allow`. -/
theorem policyRows_user (replaceVarNames : GoString → GoString) (loadedModel : Model)
    (hbase : loadedModel.Config.Base = go "User") :
    policyRows replaceVarNames loadedModel =
      (if loadedModel.Config.Casbin.Policies = [] then
        [[replaceVarNames (go "$authenticated,*,read,allow")],
         [replaceVarNames (go "$owner,*,write,allow")]]
      else loadedModel.Config.Casbin.Policies.map (fun p => [replaceVarNames p])) ++
      [[replaceVarNames (go "$everyone,*,create,allow")],
       [replaceVarNames (go "$everyone,*,login,allow")],
       [replaceVarNames (go "$owner,*,*,allow")],
       [replaceVarNames (go "$authenticated,*,findSelf,allow")]] := by
  by_cases hpolicies : loadedModel.Config.Casbin.Policies = []
  · simp [policyRows, setupModelCasbin_policies, hbase, hpolicies]
  · have hlen : loadedModel.Config.Casbin.Policies.length > 0 :=
      List.length_pos.mpr hpolicies
    simp [policyRows, setupModelCasbin_policies, hbase, hpolicies, hlen]

/-- C9, witness: the model `User`, which declares no policy, gets six rows. -/
theorem policyRows_user_witness :
    userModel.Config.Base = go "User" ∧
    policyRows (fun s => s) userModel =
      [[go "$authenticated,*,read,allow"], [go "$owner,*,write,allow"],
       [go "$everyone,*,create,allow"], [go "$everyone,*,login,allow"],
       [go "$owner,*,*,allow"], [go "$authenticated,*,findSelf,allow"]] :=
  ⟨rfl, policyRows_user (fun s => s) userModel rfl⟩

/-- C9, counterexample: the model `Account` has base `User` and declares the policy
`admin,*,*,allow`. Its rows are that policy and the four additional rows: five rows, and the
two default rows are not among them. -/
theorem policyRows_user_declared :
    accountModel.Config.Base = go "User" ∧
    policyRows (fun s => s) accountModel =
      [[go "admin,*,*,allow"], [go "$everyone,*,create,allow"],
       [go "$everyone,*,login,allow"], [go "$owner,*,*,allow"],
       [go "$authenticated,*,findSelf,allow"]] ∧
    ¬ ∃ replaceVarNames, (policyRows replaceVarNames accountModel).length = 6 := by
  refine ⟨rfl, by decide, ?_⟩
  rintro ⟨replaceVarNames, h⟩
  have hbase : accountModel.Config.Base = go "User" := rfl
  have hlen : accountModel.Config.Casbin.Policies.length > 0 := by decide
  simp only [policyRows, setupModelCasbin_policies, hbase, hlen, if_true] at h
  simp [accountModel] at h

/-! ## The login handler -/

theorem nilOrBlank_of_absentOrBlank (v : Value) (h : absentOrBlank v) :
    nilOrBlank v = some true := by
  rcases h with h | ⟨s, h, hs⟩
  · subst h; rfl
  · subst h; simp [nilOrBlank, hs]

theorem nilOrBlank_of_nonBlankString (v : Value) (h : nonBlankString v) :
    nilOrBlank v = some false := by
  obtain ⟨s, h, hs⟩ := h
  subst h
  simp [nilOrBlank, hs]

/-- C3 (amended): when the email of the login payload is absent or blank, the login handler
returns the validation error (bad request, code `USERNAME_EMAIL_REQUIRED`, name
`ValidationError`); when the email is a non-blank string and the password is absent or blank,
it returns the generic authentication failure (unauthorized, code `LOGIN_FAILED`, message
`login failed`, name `Error`). -/
theorem login_missing_credentials (env : LoginCollaborators) (ctx : EventContext) :
    (absentOrBlank (mapGet ctx.Data (go "email")) →
      login env ctx = .returned ctx (some (.westack
        ⟨⟨400, go "Bad Request"⟩, go "USERNAME_EMAIL_REQUIRED",
          [(go "message", .string (go "username or email is required"))],
          go "ValidationError"⟩))) ∧
    (nonBlankString (mapGet ctx.Data (go "email")) →
      absentOrBlank (mapGet ctx.Data (go "password")) →
      login env ctx = .returned ctx (some (.westack
        ⟨⟨401, go "Unauthorized"⟩, go "LOGIN_FAILED",
          [(go "message", .string (go "login failed"))], go "Error"⟩))) := by
  constructor
  · intro h
    simp only [login, nilOrBlank_of_absentOrBlank _ h]
    rfl
  · intro he hp
    simp only [login, nilOrBlank_of_nonBlankString _ he, nilOrBlank_of_absentOrBlank _ hp]
    rfl

/-- C3, witness: a payload with a blank email, and a payload with an email and no password. -/
theorem login_missing_credentials_witness :
    absentOrBlank (mapGet (loginContext blankEmailPayload).Data (go "email")) ∧
    login loginEnv (loginContext blankEmailPayload) =
      .returned (loginContext blankEmailPayload) (some (.westack
        ⟨⟨400, go "Bad Request"⟩, go "USERNAME_EMAIL_REQUIRED",
          [(go "message", .string (go "username or email is required"))],
          go "ValidationError"⟩)) ∧
    nonBlankString (mapGet (loginContext noPasswordPayload).Data (go "email")) ∧
    absentOrBlank (mapGet (loginContext noPasswordPayload).Data (go "password")) ∧
    login loginEnv (loginContext noPasswordPayload) =
      .returned (loginContext noPasswordPayload) (some (.westack
        ⟨⟨401, go "Unauthorized"⟩, go "LOGIN_FAILED",
          [(go "message", .string (go "login failed"))], go "Error"⟩)) :=
  have hblank : absentOrBlank (mapGet (loginContext blankEmailPayload).Data (go "email")) :=
    Or.inr ⟨go "  ", rfl, by decide⟩
  have hemail : nonBlankString (mapGet (loginContext noPasswordPayload).Data (go "email")) :=
    ⟨go "ann@example.org", rfl, by decide⟩
  have hpassword : absentOrBlank (mapGet (loginContext noPasswordPayload).Data (go "password")) :=
    Or.inl rfl
  ⟨hblank, (login_missing_credentials loginEnv (loginContext blankEmailPayload)).1 hblank,
    hemail, hpassword,
    (login_missing_credentials loginEnv (loginContext noPasswordPayload)).2 hemail hpassword⟩

/-- C3, counterexample: the payload has no email (and no password). The handler returns the
error with status 400, code `USERNAME_EMAIL_REQUIRED` and name `ValidationError`, which is a
validation-specific error and not the generic failure `LOGIN_FAILED`. -/
theorem login_without_email_is_validation_error :
    mapGet (loginContext []).Data (go "email") = .nil ∧
    ∃ e, login loginEnv (loginContext []) = .returned (loginContext []) (some (.westack e)) ∧
      e.FiberError.Code = 400 ∧ e.Code = go "USERNAME_EMAIL_REQUIRED" ∧
      e.Name = go "ValidationError" ∧ e.Code ≠ go "LOGIN_FAILED" ∧ e.FiberError.Code ≠ 401 :=
  ⟨rfl, _, rfl, rfl, rfl, rfl, by decide, by decide⟩

/-- C4: two login attempts with non-blank email and password, one whose lookup finds no record,
one whose lookup finds a record whose stored password does not verify, return the same error:
status 401, code `LOGIN_FAILED`, message `login failed`, name `Error`. -/
theorem login_failures_identical (env₁ env₂ : LoginCollaborators) (ctx₁ ctx₂ : EventContext)
    (email₁ password₁ email₂ password₂ savedPassword : GoString) (firstUser : Instance)
    (others : List Instance) (firstUserData : GoMap)
    (hemail₁ : mapGet ctx₁.Data (go "email") = .string email₁)
    (hnonblank₁ : TrimSpace email₁ ≠ go "")
    (hpassword₁ : mapGet ctx₁.Data (go "password") = .string password₁)
    (hsecret₁ : TrimSpace password₁ ≠ go "")
    (hemail₂ : mapGet ctx₂.Data (go "email") = .string email₂)
    (hnonblank₂ : TrimSpace email₂ ≠ go "")
    (hpassword₂ : mapGet ctx₂.Data (go "password") = .string password₂)
    (hsecret₂ : TrimSpace password₂ ≠ go "")
    (hunknown : (env₁.FindMany email₁).1 = [])
    (hknown : (env₂.FindMany email₂).1 = firstUser :: others)
    (hjson : firstUser.ToJSON env₂.FindModel = some firstUserData)
    (hsaved : mapGet firstUserData (go "password") = .string savedPassword)
    (hwrong : env₂.CompareHashAndPassword savedPassword password₂ = false) :
    ∃ c₁ c₂ err, login env₁ ctx₁ = .returned c₁ (some err) ∧
      login env₂ ctx₂ = .returned c₂ (some err) ∧
      err = .westack ⟨⟨401, go "Unauthorized"⟩, go "LOGIN_FAILED",
        [(go "message", .string (go "login failed"))], go "Error"⟩ := by
  refine ⟨ctx₁, ctx₂.setInstance firstUser firstUser.Id, _, ?_, ?_, rfl⟩
  · simp only [login, hemail₁, hpassword₁, nilOrBlank, hnonblank₁, hsecret₁, decide_False,
      Value.assertString, hunknown]
    rfl
  · simp only [login, hemail₂, hpassword₂, nilOrBlank, hnonblank₂, hsecret₂, decide_False,
      Value.assertString, hknown, hjson, hsaved, hwrong]
    rfl

/-- C4, witness: an unknown email, and the email of the example user with a wrong password. -/
theorem login_failures_identical_witness :
    ∃ c₁ c₂ err, login loginEnv (loginContext unknownEmailPayload) = .returned c₁ (some err) ∧
      login loginEnv (loginContext wrongPasswordPayload) = .returned c₂ (some err) ∧
      err = .westack ⟨⟨401, go "Unauthorized"⟩, go "LOGIN_FAILED",
        [(go "message", .string (go "login failed"))], go "Error"⟩ :=
  login_failures_identical loginEnv loginEnv (loginContext unknownEmailPayload)
    (loginContext wrongPasswordPayload) (go "bob@example.org") (go "secret")
    (go "ann@example.org") (go "guess") (go "$2a$10$hash") userInstance [] userInstance.data
    rfl (by decide) rfl (by decide) rfl (by decide) rfl (by decide) rfl rfl
    rfl rfl (by decide)

/-! ## The before-save observer -/

theorem EventContext.setData_Data (ctx : EventContext) (data : GoMap) :
    (ctx.setData data).Data = data := by
  cases ctx; rfl

theorem EventContext.setData_IsNewInstance (ctx : EventContext) (data : GoMap) :
    (ctx.setData data).IsNewInstance = ctx.IsNewInstance := by
  cases ctx; rfl

theorem mapLookup_mapSet_ne {α : Type} (m : List (GoString × α)) (k k' : GoString) (v : α)
    (h : k ≠ k') : mapLookup (mapSet m k v) k' = mapLookup m k' := by
  induction m with
  | nil => simp [mapSet, mapLookup, h]
  | cons kv rest ih =>
    obtain ⟨k₀, v₀⟩ := kv
    by_cases h0 : k₀ = k
    · subst h0
      simp [mapSet, mapLookup, h]
    · by_cases h1 : k₀ = k'
      · subst h1
        simp [mapSet, mapLookup, h0]
      · simp [mapSet, mapLookup, h0, h1, ih]

theorem mapGet_mapSet_ne (m : GoMap) (k k' : GoString) (v : Value) (h : k ≠ k') :
    mapGet (mapSet m k v) k' = mapGet m k' := by
  simp [mapGet, mapLookup_mapSet_ne m k k' v h]

/-- On an update of a `User` model the observer leaves an absent password and the empty
string as they are. -/
theorem beforeSave_update_keeps_empty_password (env : SaveCollaborators) (config : Config)
    (ctx : EventContext) (hupdate : ctx.IsNewInstance = false) (hbase : config.Base = go "User")
    (hpassword : mapGet ctx.Data (go "password") = .nil ∨
      mapGet ctx.Data (go "password") = .string []) :
    ∃ ctx', beforeSave env config ctx = .returned ctx' none ∧
      mapGet ctx'.Data (go "password") = mapGet ctx.Data (go "password") := by
  have hkey : go "modified" ≠ go "password" := by decide
  by_cases hmod : (mapGet ctx.Data (go "modified")).isNil = true
  · refine ⟨ctx.setData (mapSet ctx.Data (go "modified") (.time env.modifiedNow)), ?_, ?_⟩
    · simp only [beforeSave, hmod, if_true, EventContext.setData_IsNewInstance, hupdate, hbase,
        beforeSaveUpdateUser, EventContext.setData_Data, mapGet_mapSet_ne _ _ _ _ hkey]
      rcases hpassword with h | h <;> simp [h, Value.isNil, Value.isEmptyString]
    · rw [EventContext.setData_Data, mapGet_mapSet_ne _ _ _ _ hkey]
  · refine ⟨ctx, ?_, rfl⟩
    have hmod' : (mapGet ctx.Data (go "modified")).isNil = false := by simpa using hmod
    simp only [beforeSave, hmod', Bool.false_eq_true, if_false, hupdate, hbase, if_true,
      beforeSaveUpdateUser]
    rcases hpassword with h | h <;> simp [h, Value.isNil, Value.isEmptyString]

/-- C11, the code at the failing input: an update of a `User` model whose payload holds the
whitespace-only password of three spaces. The password is blank (`strings.TrimSpace` of it is
empty), yet the observer hashes it and stores the hash: the update branch tests
`!= nil && != ""` only, where the creation branch tests `strings.TrimSpace(...) == ""`. -/
theorem beforeSave_update_hashes_blank_password :
    TrimSpace (go "   ") = go "" ∧
    (updateContext [(go "password", .string (go "   "))]).IsNewInstance = false ∧
    userModel.Config.Base = go "User" ∧
    ∃ ctx', beforeSave saveEnv userModel.Config
        (updateContext [(go "password", .string (go "   "))]) = .returned ctx' none ∧
      (mapGet ctx'.Data (go "password")).assertString = some (go "$2a$10$   ") ∧
      go "$2a$10$   " ≠ go "   " := by
  refine ⟨by decide, rfl, rfl, _, rfl, rfl, by decide⟩

/-! ## Grammar sections -/

/-- The values `setupModel` hands to `AddDef` are the grammar sections passed through
`replaceVarNames`. -/
theorem setupModelDefs_sections (replaceVarNames : GoString → GoString) (loadedModel : Model) :
    (setupModelDefs replaceVarNames loadedModel NewModel).defs =
      [(go "r", go "r", replaceVarNames (grammarSections loadedModel).requestDefinition),
       (go "p", go "p", replaceVarNames (grammarSections loadedModel).policyDefinition),
       (go "g", go "g", replaceVarNames (grammarSections loadedModel).roleDefinition),
       (go "e", go "e", replaceVarNames (grammarSections loadedModel).policyEffect),
       (go "m", go "m", replaceVarNames (grammarSections loadedModel).matchersDefinition)] :=
  rfl

/-- C12 (amended): the values handed to `AddDef` are the five sections passed through
`replaceVarNames`. Without an override the request, policy, role and matcher sections are the
computed defaults. A non-empty override of the request, policy or role definition is the section
as it is, without any replacement; a non-empty override of the matcher is the override with
every occurrence of `$default` replaced by the default matcher between ` ( ` and ` ) `. -/
theorem grammarSections_overrides (replaceVarNames : GoString → GoString)
    (loadedModel : Model) :
    (setupModelDefs replaceVarNames loadedModel NewModel).defs =
      [(go "r", go "r", replaceVarNames (grammarSections loadedModel).requestDefinition),
       (go "p", go "p", replaceVarNames (grammarSections loadedModel).policyDefinition),
       (go "g", go "g", replaceVarNames (grammarSections loadedModel).roleDefinition),
       (go "e", go "e", replaceVarNames (grammarSections loadedModel).policyEffect),
       (go "m", go "m", replaceVarNames (grammarSections loadedModel).matchersDefinition)] ∧
    (loadedModel.Config.Casbin.RequestDefinition = go "" →
      (grammarSections loadedModel).requestDefinition = go "sub, obj, act") ∧
    (loadedModel.Config.Casbin.RequestDefinition ≠ go "" →
      (grammarSections loadedModel).requestDefinition =
        loadedModel.Config.Casbin.RequestDefinition) ∧
    (loadedModel.Config.Casbin.PolicyDefinition = go "" →
      (grammarSections loadedModel).policyDefinition = go "sub, obj, act, eft") ∧
    (loadedModel.Config.Casbin.PolicyDefinition ≠ go "" →
      (grammarSections loadedModel).policyDefinition =
        loadedModel.Config.Casbin.PolicyDefinition) ∧
    (loadedModel.Config.Casbin.RoleDefinition = go "" →
      (grammarSections loadedModel).roleDefinition = go "_, _") ∧
    (loadedModel.Config.Casbin.RoleDefinition ≠ go "" →
      (grammarSections loadedModel).roleDefinition =
        loadedModel.Config.Casbin.RoleDefinition) ∧
    (loadedModel.Config.Casbin.MatchersDefinition = go "" →
      (grammarSections loadedModel).matchersDefinition = defaultMatchersDefinition) ∧
    (loadedModel.Config.Casbin.MatchersDefinition ≠ go "" →
      (grammarSections loadedModel).matchersDefinition =
        ReplaceAll loadedModel.Config.Casbin.MatchersDefinition (go "$default")
          (go " ( " ++ defaultMatchersDefinition ++ go " ) ")) := by
  refine ⟨rfl, ?_, ?_, ?_, ?_, ?_, ?_, ?_, ?_⟩ <;> intro h <;> simp [grammarSections, h]

/-- C12, witness: a model without overrides, and a model whose matcher override refers to the
default. -/
theorem grammarSections_overrides_witness :
    tagModel.Config.Casbin.RequestDefinition = go "" ∧
    (grammarSections tagModel).requestDefinition = go "sub, obj, act" ∧
    guardedModel.Config.Casbin.MatchersDefinition ≠ go "" ∧
    (grammarSections guardedModel).matchersDefinition =
      go " ( " ++ defaultMatchersDefinition ++ go " ) " ++ go " && r.sub != 'x'" :=
  ⟨rfl, (grammarSections_overrides (fun s => s) tagModel).2.1 rfl, by decide,
    ((grammarSections_overrides (fun s => s) guardedModel).2.2.2.2.2.2.2.2 (by decide)).trans
      rfl⟩

/-- C12, counterexample: the model overrides the request definition with `$default, tenant`.
The compiled request section is that text as it is; the override with `$default` replaced by
the default would be `sub, obj, act, tenant`. -/
theorem grammarSections_request_override_verbatim :
    tenantModel.Config.Casbin.RequestDefinition = go "$default, tenant" ∧
    (grammarSections tenantModel).requestDefinition = go "$default, tenant" ∧
    (setupModelDefs (fun s => s) tenantModel NewModel).defs.head? =
      some (go "r", go "r", go "$default, tenant") ∧
    ReplaceAll (go "$default, tenant") (go "$default") (go "sub, obj, act") =
      go "sub, obj, act, tenant" ∧
    go "$default, tenant" ≠ go "sub, obj, act, tenant" := by
  refine ⟨rfl, by decide, by decide, by decide, by decide⟩

/-! ## Container accessors -/

/-- The accessor `GetA` panics only on a `primitive.A`: for every other stored value it returns
the normalized sequence or the nil pointer. -/
theorem GetA_returns_of_not_primitiveA
    (JsonPathLookup : GoMap → GoString → Except GoError Value) (modelInstance : Instance)
    (path : GoString)
    (h : ∀ a, JsonPathLookup modelInstance.data (jsonPath path) ≠ .ok (.primitiveA a)) :
    (modelInstance.GetA JsonPathLookup path).isSome = true := by
  unfold Instance.GetA
  cases hres : JsonPathLookup modelInstance.data (jsonPath path) with
  | error e => rfl
  | ok res =>
    cases res <;> first | rfl | exact absurd hres (h _)

/-- C13, the code at the failing input: the field `tags` holds a `primitive.A` whose element
is a string. `GetA` asserts `v.(primitive.M)` on the element and panics. The same elements in
a `[]interface{}` (field `labels`) give a sequence with one empty mapping, and `GetM` on a
value that is not a mapping gives the nil pointer. -/
theorem GetA_panics_on_primitiveA_of_strings :
    lookupTopLevel counterInstance.data (jsonPath (go "tags")) =
      .ok (.primitiveA [.string (go "a")]) ∧
    counterInstance.GetA lookupTopLevel (go "tags") = none ∧
    counterInstance.GetA lookupTopLevel (go "labels") = some (some [[]]) ∧
    counterInstance.GetA lookupTopLevel (go "name") = some none ∧
    counterInstance.GetM lookupTopLevel (go "name") = none ∧
    counterInstance.GetM lookupTopLevel (go "meta") = some [(go "k", .int 1)] := by
  refine ⟨rfl, rfl, rfl, rfl, rfl, rfl⟩

/-! ## Numeric accessors -/

/-- What `GetInt` and `GetFloat64` return for the three integer representations: `GetInt`
returns the integer for each; `GetFloat64` converts an `int` and an `int64`, and has no case for
an `int32`, for which it returns 0. -/
theorem numeric_widening (JsonPathLookup : GoMap → GoString → Except GoError Value)
    (ParseFloat : GoString → Except GoError Float64) (modelInstance : Instance)
    (path : GoString) (n : Int) :
    (JsonPathLookup modelInstance.data (jsonPath path) = .ok (.int n) →
      modelInstance.GetInt JsonPathLookup path = n ∧
      modelInstance.GetFloat64 JsonPathLookup ParseFloat path = Float64.ofInt n) ∧
    (JsonPathLookup modelInstance.data (jsonPath path) = .ok (.int64 n) →
      modelInstance.GetInt JsonPathLookup path = n ∧
      modelInstance.GetFloat64 JsonPathLookup ParseFloat path = Float64.ofInt n) ∧
    (JsonPathLookup modelInstance.data (jsonPath path) = .ok (.int32 n) →
      modelInstance.GetInt JsonPathLookup path = n ∧
      modelInstance.GetFloat64 JsonPathLookup ParseFloat path = ⟨0⟩) := by
  have h0 : Float64.ofInt 0 = ⟨0⟩ := by decide
  refine ⟨?_, ?_, ?_⟩ <;> intro h <;> simp [Instance.GetInt, Instance.GetFloat64, h, h0]

/-- C14, the code at the failing input: the field `count` holds the `int32` 5. `GetInt`
returns 5, but `GetFloat64` returns 0 (all bits zero), not 5 converted to a float (bit pattern
`0x4014000000000000`). -/
theorem GetFloat64_int32_is_zero :
    lookupTopLevel counterInstance.data (jsonPath (go "count")) = .ok (.int32 5) ∧
    counterInstance.GetInt lookupTopLevel (go "count") = 5 ∧
    counterInstance.GetFloat64 lookupTopLevel parseFloatStub (go "count") = ⟨0⟩ ∧
    Float64.ofInt 5 = ⟨0x4014000000000000⟩ ∧
    counterInstance.GetFloat64 lookupTopLevel parseFloatStub (go "count") ≠ Float64.ofInt 5 := by
  refine ⟨rfl, rfl, by decide, by decide, by decide⟩

/-! ## Relation accessors -/

/-- C15: for a relation name declared on the model of the instance: when the type is `hasMany`
or `hasAndBelongsToMany` and the raw data holds no value under the name, `Get` returns the
empty sequence of instances and `GetMany` returns the empty sequence; when the type is
`belongsTo` or `hasOne`, `Get` returns the stored value as it is, and when nothing is stored
`GetOne` returns the nil pointer. -/
theorem Get_relation (modelInstance : Instance) (relationName : GoString) (relation : Relation)
    (hdeclared : mapLookup modelInstance.Model.Config.Relations relationName = some relation) :
    (relation.Type_ = go "hasMany" ∨ relation.Type_ = go "hasAndBelongsToMany" →
      mapGet modelInstance.data relationName = .nil →
      modelInstance.Get relationName = some (.instances []) ∧
      modelInstance.GetMany relationName = some []) ∧
    (relation.Type_ = go "belongsTo" ∨ relation.Type_ = go "hasOne" →
      modelInstance.Get relationName = some (mapGet modelInstance.data relationName) ∧
      (mapGet modelInstance.data relationName = .nil →
        modelInstance.GetOne relationName = some none)) := by
  constructor
  · intro hmany hnil
    have hget : modelInstance.Get relationName = some (.instances []) := by
      simp [Instance.Get, hdeclared, hmany, hnil, Value.isNil]
    exact ⟨hget, by simp [Instance.GetMany, hget]⟩
  · intro hone
    have hnot : ¬ (relation.Type_ = go "hasMany" ∨ relation.Type_ = go "hasAndBelongsToMany") := by
      rcases hone with h | h <;> rw [h] <;> decide
    have hget : modelInstance.Get relationName =
        some (mapGet modelInstance.data relationName) := by
      simp [Instance.Get, hdeclared, hnot]
    refine ⟨hget, fun hnil => ?_⟩
    simp [Instance.GetOne, hget, hnil]

/-- C15, witness: the example post. Its to-many relation `tags` and its to-one relation
`audit` hold nothing, its to-one relation `author` is materialized. -/
theorem Get_relation_witness :
    mapLookup postInstance.Model.Config.Relations (go "tags") =
      some ⟨go "hasMany", go "Tag", none, none⟩ ∧
    (postInstance.Get (go "tags") = some (.instances []) ∧
      postInstance.GetMany (go "tags") = some []) ∧
    mapLookup postInstance.Model.Config.Relations (go "audit") =
      some ⟨go "hasOne", go "AuditLog", none, none⟩ ∧
    postInstance.Get (go "audit") = some .nil ∧
    postInstance.GetOne (go "audit") = some none ∧
    postInstance.Get (go "author") = some (.instancePtr (some userInstance)) :=
  ⟨rfl,
    (Get_relation postInstance (go "tags") ⟨go "hasMany", go "Tag", none, none⟩ rfl).1
      (Or.inl rfl) rfl,
    rfl,
    ((Get_relation postInstance (go "audit") ⟨go "hasOne", go "AuditLog", none, none⟩ rfl).2
      (Or.inr rfl)).1,
    ((Get_relation postInstance (go "audit") ⟨go "hasOne", go "AuditLog", none, none⟩ rfl).2
      (Or.inr rfl)).2 rfl,
    ((Get_relation postInstance (go "author") ⟨go "belongsTo", go "User", none, none⟩ rfl).2
      (Or.inl rfl)).1⟩

end Westack
